import Mathlib

/-!
Verification development for the GANN JavaScript SDK session-negotiation
core: the signaling channel (`src/signaling.ts`), the QUIC direct-first
negotiation flows (`quic_session.ts`), and the QUIC offer candidate
normalisation (`quic.ts`).

JavaScript values exchanged on the wire are modelled by the inductive
`Json`. The host runtime `JSON.parse` is modelled as an abstract step
producing `Option Json` (`none` for unparseable input); `JSON.stringify`
is embedded as `Json.stringify`. JavaScript `undefined` and `null` are
merged into `Json.null`: inside parsed JSON only `null` occurs, and the
one place where the distinction is observable (`JSON.stringify` omitting
`undefined`-valued fields) is modelled with `Option` fields on the wire
command structure.
-/

set_option maxHeartbeats 1000000

namespace GannSdk

/-- JSON/JavaScript value model. Numbers are restricted to integers: no
claim in this development depends on float behaviour. -/
inductive Json where
  | null : Json
  | bool (b : Bool) : Json
  | num (n : Int) : Json
  | str (s : String) : Json
  | arr (elems : List Json) : Json
  | obj (fields : List (String × Json)) : Json

/-- Is this value JavaScript nullish (`null` / `undefined`)? -/
def Json.isNull : Json → Bool
  | Json.null => true
  | _ => false

/-- JavaScript property access `v?.k`: field lookup on objects, `null`
(standing for `undefined`) everywhere else. Parsed JSON objects have
unique keys, so first-match lookup agrees with JS semantics. -/
def jsGet (v : Json) (key : String) : Json :=
  match v with
  | Json.obj fields =>
    match fields.find? (fun f => f.1 = key) with
    | some f => f.2
    | none => Json.null
  | _ => Json.null

/-- JavaScript nullish coalescing `a ?? b` (with `undefined` merged into
`Json.null`). -/
def jsOr (a b : Json) : Json :=
  if a.isNull then b else a

/-- JavaScript truthiness of a value (`NaN` is unrepresentable here). -/
def jsTruthy : Json → Bool
  | Json.null => false
  | Json.bool b => b
  | Json.num n => n ≠ 0
  | Json.str s => s ≠ ""
  | Json.arr _ => true
  | Json.obj _ => true

/-- Whitespace recognised by `String.prototype.trim` (ASCII subset; the
sources only ever trim identifiers and host:port strings). -/
def isJsWs (c : Char) : Bool :=
  c = ' ' ∨ c = '\t' ∨ c = '\n' ∨ c = '\r' ∨ c = '\x0b' ∨ c = '\x0c'

/-- JavaScript `String.prototype.trim`. -/
def jsTrim (s : String) : String :=
  String.mk (((s.toList.dropWhile isJsWs).reverse.dropWhile isJsWs).reverse)

/-- Lower-casing as used by the source (`toLowerCase`). The JavaScript
version is Unicode-aware; every string it is compared against in the
source is ASCII, for which the ASCII mapping agrees. -/
def toLowerAscii (s : String) : String :=
  String.mk (s.toList.map Char.toLower)

mutual

/-- JavaScript `String(v)` coercion. `Json.null` prints as "null"; in the
embedded code every coercion site first replaces nullish values, so the
`undefined`/`null` print difference is never observable. -/
def jsToString : Json → String
  | Json.null => "null"
  | Json.bool b => if b then "true" else "false"
  | Json.num n => toString n
  | Json.str s => s
  | Json.arr es => jsToStringElems es
  | Json.obj _ => "[object Object]"

/-- `Array.prototype.toString`: elements joined by commas, nullish
elements rendered empty. -/
def jsToStringElems : List Json → String
  | [] => ""
  | [e] => (match e with | Json.null => "" | x => jsToString x)
  | e :: rest =>
    (match e with | Json.null => "" | x => jsToString x) ++ "," ++ jsToStringElems rest

end

/-- Two-digit lowercase hex rendering of a byte, for control-character
escapes in `JSON.stringify`. -/
def hex2 (n : Nat) : String :=
  let digit := fun (d : Nat) =>
    if d < 10 then String.mk [Char.ofNat (48 + d)]
    else String.mk [Char.ofNat (87 + d)]
  digit (n / 16 % 16) ++ digit (n % 16)

/-- Escape one character as `JSON.stringify` does inside string literals. -/
def escChar (c : Char) : String :=
  if c = '"' then "\\\""
  else if c = '\\' then "\\\\"
  else if c = '\n' then "\\n"
  else if c = '\r' then "\\r"
  else if c = '\t' then "\\t"
  else if c = '\x08' then "\\b"
  else if c = '\x0c' then "\\f"
  else if c.toNat < 32 then "\\u00" ++ hex2 c.toNat
  else String.mk [c]

/-- `JSON.stringify` rendering of a string literal. -/
def quoteStr (s : String) : String :=
  "\"" ++ String.join (s.toList.map escChar) ++ "\""

mutual

/-- `JSON.stringify` (on values containing no `undefined`; fields the
source sets to `undefined` are modelled as absent). -/
def Json.stringify : Json → String
  | Json.null => "null"
  | Json.bool b => if b then "true" else "false"
  | Json.num n => toString n
  | Json.str s => quoteStr s
  | Json.arr es => "[" ++ Json.stringifyElems es ++ "]"
  | Json.obj fs => "\x7b" ++ Json.stringifyFields fs ++ "\x7d"

def Json.stringifyElems : List Json → String
  | [] => ""
  | [e] => Json.stringify e
  | e :: rest => Json.stringify e ++ "," ++ Json.stringifyElems rest

def Json.stringifyFields : List (String × Json) → String
  | [] => ""
  | [f] => quoteStr f.1 ++ ":" ++ Json.stringify f.2
  | f :: rest => quoteStr f.1 ++ ":" ++ Json.stringify f.2 ++ "," ++ Json.stringifyFields rest

end

/-!
## Signaling channel: outbound commands (`src/signaling.ts`)

`requireAgentId` / `requireSessionId` / the four public send operations /
`sendCommand` / `flushQueue` / the `open` handler, embedded as explicit
state passing. The socket write log (`written`) records `socket.send`
calls in order.
-/

/-- Outbound signaling payload as constructed by the send operations.
`disconnect`.`reason` is `Option` because the source passes the optional
`reason` argument through and `JSON.stringify` omits `undefined` fields. -/
inductive WirePayload where
  | quicOffer (offer : Json)
  | quicAnswer (answer : Json)
  | quicCandidate (candidate : Json)
  | disconnect (reason : Option Json)

/-- The wire command structure `SignalingCommandWire` of the source:
type "signal", optional session id, target, payload. `session_id` is
`Option` because the source sets it to `undefined` for offers and
`JSON.stringify` then omits the field. -/
structure SignalingCommandWire where
  toAgent : String
  session_id : Option String
  payload : WirePayload

/-- JSON rendering of an outbound payload, following the object literals
in `sendQuicOffer` and friends (key order: kind first, then the value
key; a disconnect without reason renders with the kind key only). -/
def wirePayloadToJson : WirePayload → Json
  | WirePayload.quicOffer offer => Json.obj [("kind", Json.str "quic_offer"), ("offer", offer)]
  | WirePayload.quicAnswer answer => Json.obj [("kind", Json.str "quic_answer"), ("answer", answer)]
  | WirePayload.quicCandidate candidate =>
    Json.obj [("kind", Json.str "quic_candidate"), ("candidate", candidate)]
  | WirePayload.disconnect (some reason) =>
    Json.obj [("kind", Json.str "disconnect"), ("reason", reason)]
  | WirePayload.disconnect none => Json.obj [("kind", Json.str "disconnect")]

/-- JSON rendering of the full wire command, in the literal key order of
the source: type, session_id (omitted when `undefined`), to, payload. -/
def wireToJson (cmd : SignalingCommandWire) : Json :=
  Json.obj
    ([("type", Json.str "signal")]
      ++ (match cmd.session_id with
          | some sid => [("session_id", Json.str sid)]
          | none => [])
      ++ [("to", Json.str cmd.toAgent), ("payload", wirePayloadToJson cmd.payload)])

/-- `requireAgentId`: trim, reject empty. -/
def requireAgentId (value : String) : Except String String :=
  let trimmed := jsTrim value
  if trimmed = "" then Except.error "target agent_id is required for signaling"
  else Except.ok trimmed

/-- `requireSessionId`: trim, reject empty. -/
def requireSessionId (value : String) : Except String String :=
  let trimmed := jsTrim value
  if trimmed = "" then Except.error "session_id is required for signaling"
  else Except.ok trimmed

/-- One call to a public send operation of `SignalingChannel`. -/
inductive SendOp where
  | offer (targetAgentId : String) (offer : Json)
  | answer (sessionId targetAgentId : String) (answer : Json)
  | candidate (sessionId targetAgentId : String) (candidate : Json)
  | disconnect (sessionId targetAgentId : String) (reason : Option Json)

/-- Argument validation and command construction of one send operation,
in the evaluation order of the source object literals (for answer,
candidate and disconnect the `session_id` field initialiser runs before
the `to` field initialiser). -/
def opCommand : SendOp → Except String SignalingCommandWire
  | SendOp.offer targetAgentId offer => do
    let toAgent ← requireAgentId targetAgentId
    Except.ok ⟨toAgent, none, WirePayload.quicOffer offer⟩
  | SendOp.answer sessionId targetAgentId answer => do
    let sid ← requireSessionId sessionId
    let toAgent ← requireAgentId targetAgentId
    Except.ok ⟨toAgent, some sid, WirePayload.quicAnswer answer⟩
  | SendOp.candidate sessionId targetAgentId candidate => do
    let sid ← requireSessionId sessionId
    let toAgent ← requireAgentId targetAgentId
    Except.ok ⟨toAgent, some sid, WirePayload.quicCandidate candidate⟩
  | SendOp.disconnect sessionId targetAgentId reason => do
    let sid ← requireSessionId sessionId
    let toAgent ← requireAgentId targetAgentId
    Except.ok ⟨toAgent, some sid, WirePayload.disconnect reason⟩

/-- Does the operation require a session id in `sendCommand` (true for
all kinds except the offer, which passes `requireSessionId: false`)? -/
def opRequiresSessionId : SendOp → Bool
  | SendOp.offer _ _ => false
  | _ => true

/-- State of a `SignalingChannel` together with the socket write log.
`readyState` is the socket ready state (1 = OPEN). -/
structure ChannelState where
  pendingFrames : List String
  isClosed : Bool
  settledReady : Bool
  readyState : Nat
  written : List String

/-- The initial state of a channel whose socket is still connecting. -/
def ChannelState.initial : ChannelState :=
  ⟨[], false, false, 0, []⟩

/-- `SignalingChannel.sendCommand`: reject when closed, enforce the
session id requirement (the source tests `!command.session_id`, which is
true for a missing and for an empty id), serialise, then either write to
the open socket or push onto the pending queue. -/
def sendCommand (st : ChannelState) (cmd : SignalingCommandWire) (requireSid : Bool) :
    Except String ChannelState :=
  if st.isClosed then Except.error "signaling channel already closed"
  else if requireSid ∧ cmd.session_id.getD "" = "" then
    Except.error "session_id is required for signaling commands"
  else
    let payload := Json.stringify (wireToJson cmd)
    if st.readyState = 1 then
      Except.ok { st with written := st.written ++ [payload] }
    else
      Except.ok { st with pendingFrames := st.pendingFrames ++ [payload] }

/-- One public send operation: `assertActive` (throws when the channel
is closed), then validation and `sendCommand`. -/
def applyOp (st : ChannelState) (op : SendOp) : Except String ChannelState :=
  if st.isClosed then Except.error "signaling channel closed"
  else do
    let cmd ← opCommand op
    sendCommand st cmd (opRequiresSessionId op)

/-- A sequence of send operations, applied left to right. -/
def applyOps (st : ChannelState) : List SendOp → Except String ChannelState
  | [] => Except.ok st
  | op :: rest => do
    let st' ← applyOp st op
    applyOps st' rest

/-- The `while` loop body of `flushQueue`: shift frames off the front of
the queue, writing each truthy frame to the socket. -/
def flushLoop : List String → List String → List String
  | [], written => written
  | frame :: rest, written =>
    flushLoop rest (if frame = "" then written else written ++ [frame])

/-- `SignalingChannel.flushQueue`. -/
def flushQueue (st : ChannelState) : ChannelState :=
  if st.readyState ≠ 1 ∨ st.pendingFrames = [] then st
  else { st with pendingFrames := [], written := flushLoop st.pendingFrames st.written }

/-- The socket `open` handler: the socket has reached ready state 1,
the ready signal resolves, and the queue is flushed. (The `open` event
emission carries no data and is not tracked here.) -/
def handleOpen (st : ChannelState) : ChannelState :=
  flushQueue { st with settledReady := true, readyState := 1 }

/-- The serialised frame a send operation produces when its validation
succeeds (total companion of `opCommand`, used to state queue-order
theorems). -/
def opFrame : SendOp → String
  | SendOp.offer targetAgentId offer =>
    Json.stringify (wireToJson ⟨jsTrim targetAgentId, none, WirePayload.quicOffer offer⟩)
  | SendOp.answer sessionId targetAgentId answer =>
    Json.stringify (wireToJson
      ⟨jsTrim targetAgentId, some (jsTrim sessionId), WirePayload.quicAnswer answer⟩)
  | SendOp.candidate sessionId targetAgentId candidate =>
    Json.stringify (wireToJson
      ⟨jsTrim targetAgentId, some (jsTrim sessionId), WirePayload.quicCandidate candidate⟩)
  | SendOp.disconnect sessionId targetAgentId reason =>
    Json.stringify (wireToJson
      ⟨jsTrim targetAgentId, some (jsTrim sessionId), WirePayload.disconnect reason⟩)

/-!
## Wire codec: inbound frames (`src/signaling.ts`)

`normalizeSocketEvent`, the per-family normalisers and
`handleMessagePayload`. Host primitives (`Date` parsing, `Number`
coercion, `Date.now`) only affect field values no claim depends on;
those fields carry the raw `Json` value they were built from.
-/

/-- The tagged sum `SignalingPayload` produced by the inbound decoder.
Carried values are raw `Json`. -/
inductive SigPayload where
  | quicOffer (offer : Json)
  | quicAnswer (answer : Json)
  | quicCandidate (candidate : Json)
  | quicRelay (relay : Json)
  | disconnect (reason : Json)
  | reject (reason : Json)

/-- Decoded `SignalingEvent`. `expiresAtRaw` carries the raw value fed
to the host `Date` conversion. -/
structure SigEvent where
  sessionId : String
  fromAgent : String
  toAgent : String
  expiresAtRaw : Json
  payload : SigPayload

/-- Decoded `SessionLifecycleEventPayload`. -/
structure SessionEvt where
  sessionId : String
  targetAgent : String
  peerAgent : String
  state : String
  expiresAtRaw : Json
  reason : Json

/-- Decoded `ControlDirectiveEvent`. -/
structure ControlEvt where
  targetAgent : String
  action : String
  reason : String
  sessionId : Json

/-- Decoded `HeartbeatBroadcast`. `timestampRaw` and `loadRaw` carry the
raw values fed to the host `Number` coercion (`Date.now()` supplies the
timestamp default and is host state, represented by `Json.null` here). -/
structure HeartbeatEvt where
  agentId : String
  timestampRaw : Json
  loadRaw : Json
  status : String

/-- `normalizeSignalingPayload`: select the variant by the lower-cased
`String` coercion of `kind` falling back to `type` falling back to
"reject", with per-kind value extraction by nullish coalescing. -/
def normalizeSignalingPayload (payload : Json) : SigPayload :=
  let rawKind :=
    toLowerAscii (jsToString (jsOr (jsGet payload "kind") (jsOr (jsGet payload "type") (Json.str "reject"))))
  if rawKind = "quic_offer" then
    SigPayload.quicOffer (jsOr (jsGet payload "offer") (jsOr (jsGet payload "payload") payload))
  else if rawKind = "quic_answer" then
    SigPayload.quicAnswer (jsOr (jsGet payload "answer") (jsOr (jsGet payload "payload") payload))
  else if rawKind = "quic_candidate" then
    SigPayload.quicCandidate (jsOr (jsGet payload "candidate") (jsOr (jsGet payload "payload") payload))
  else if rawKind = "quic_relay" then
    SigPayload.quicRelay (jsOr (jsGet payload "relay") (jsOr (jsGet payload "payload") payload))
  else if rawKind = "disconnect" then
    SigPayload.disconnect (jsGet payload "reason")
  else
    SigPayload.reject (jsOr (jsGet payload "reason") (Json.str "unknown"))

/-- `normalizeSignalingEvent`. -/
def normalizeSignalingEvent (payload : Json) : SigEvent :=
  { sessionId := jsToString (jsOr (jsGet payload "session_id") (Json.str ""))
    fromAgent := jsToString (jsOr (jsGet payload "from") (Json.str ""))
    toAgent := jsToString (jsOr (jsGet payload "to") (Json.str ""))
    expiresAtRaw := jsGet payload "expires_at"
    payload := normalizeSignalingPayload (jsGet payload "payload") }

/-- `normalizeSessionEvent`. -/
def normalizeSessionEvent (payload : Json) : SessionEvt :=
  { sessionId := jsToString (jsOr (jsGet payload "session_id") (Json.str ""))
    targetAgent := jsToString (jsOr (jsGet payload "target_agent") (Json.str ""))
    peerAgent := jsToString (jsOr (jsGet payload "peer_agent") (Json.str ""))
    state := jsToString (jsOr (jsGet payload "state") (Json.str "pending"))
    expiresAtRaw := jsGet payload "expires_at"
    reason := jsGet payload "reason" }

/-- `normalizeControlEvent`. -/
def normalizeControlEvent (payload : Json) : ControlEvt :=
  { targetAgent := jsToString (jsOr (jsGet payload "target_agent") (Json.str ""))
    action := jsToString (jsOr (jsGet payload "action") (Json.str "reject"))
    reason := jsToString (jsOr (jsGet payload "reason") (Json.str ""))
    sessionId := jsGet payload "session_id" }

/-- `normalizeHeartbeat`. -/
def normalizeHeartbeat (payload : Json) : HeartbeatEvt :=
  { agentId := jsToString (jsOr (jsGet payload "agent_id") (jsOr (jsGet payload "agentId") (Json.str "")))
    timestampRaw := jsGet payload "timestamp"
    loadRaw := jsGet payload "load"
    status := jsToString (jsOr (jsGet payload "status") (Json.str "online")) }

/-- A `ParsedSocketEvent`: one typed event of one of the four families. -/
inductive TypedEvent where
  | signaling (e : SigEvent)
  | session (e : SessionEvt)
  | control (e : ControlEvt)
  | heartbeat (e : HeartbeatEvt)

/-- The family tag of a typed event. -/
def TypedEvent.family : TypedEvent → String
  | TypedEvent.signaling _ => "signaling"
  | TypedEvent.session _ => "session"
  | TypedEvent.control _ => "control"
  | TypedEvent.heartbeat _ => "heartbeat"

/-- Does the value pass the JavaScript test
`input truthy and typeof input = "object"` (arrays included, `null`
excluded by truthiness)? -/
def isObjectLike : Json → Bool
  | Json.obj _ => true
  | Json.arr _ => true
  | _ => false

/-- Does this value strictly equal the given string literal (semantics
of a JavaScript `switch` case on a string)? -/
def isStrEq (v : Json) (s : String) : Bool :=
  match v with
  | Json.str t => t = s
  | _ => false

/-- `normalizeSocketEvent`. -/
def normalizeSocketEvent (input : Json) : Option TypedEvent :=
  if ¬ isObjectLike input then none
  else
    let event := jsGet input "event"
    let payload := jsGet input "payload"
    if ¬ jsTruthy event ∨ ¬ jsTruthy payload then none
    else if isStrEq event "signaling" then some (TypedEvent.signaling (normalizeSignalingEvent payload))
    else if isStrEq event "session" then some (TypedEvent.session (normalizeSessionEvent payload))
    else if isStrEq event "control" then some (TypedEvent.control (normalizeControlEvent payload))
    else if isStrEq event "heartbeat" then some (TypedEvent.heartbeat (normalizeHeartbeat payload))
    else none

/-- An emission of `handleMessagePayload`: the `raw` event followed by
the family event for the same normalised payload. -/
inductive Emitted where
  | raw (e : TypedEvent)
  | typed (e : TypedEvent)

/-- Is this emission one of the four typed family events (rather than
the `raw` event)? -/
def Emitted.isTyped : Emitted → Bool
  | Emitted.typed _ => true
  | Emitted.raw _ => false

/-- `SignalingChannel.handleMessagePayload`, as a function of the
outcome of `JSON.parse` on the raw frame (`none`: the frame was empty or
unparseable, both of which return before dispatch). Returns the emitted
events in order; the function has no failure outcome. -/
def handleMessagePayload (parseResult : Option Json) : List Emitted :=
  match parseResult with
  | none => []
  | some parsed =>
    match normalizeSocketEvent parsed with
    | none => []
    | some ev => [Emitted.raw ev, Emitted.typed ev]

/-!
## Socket error classification (`src/signaling.ts`)
-/

/-- The `unknown` error value handed to the node socket error handler:
a string, an `Error` with a message, or a nullish value. -/
inductive ErrVal where
  | vstr (s : String)
  | verr (message : String)
  | vnull

/-- The message extraction inside `isTerminalSocketError`: a string is
its own message, an `Error` contributes `error.message`, and for the
nullish value `String(error?.message ?? error)` renders "null". -/
def errMessage : ErrVal → String
  | ErrVal.vstr s => s
  | ErrVal.verr m => m
  | ErrVal.vnull => "null"

/-- Does the first list occur at the head of the second? -/
def startsWithList : List Char → List Char → Bool
  | [], _ => true
  | _ :: _, [] => false
  | a :: as, b :: bs => a = b ∧ startsWithList as bs

/-- Does the first list occur contiguously anywhere in the second? -/
def occursIn (needle : List Char) (haystack : List Char) : Bool :=
  if startsWithList needle haystack then true
  else
    match haystack with
    | [] => false
    | _ :: t => occursIn needle t

/-- Substring test (`String.prototype.includes`). -/
def strIncludes (haystack needle : String) : Bool :=
  occursIn needle.toList haystack.toList

/-- The six terminal-error substrings, in source order. -/
def terminalSubstrings : List String :=
  ["connection closed", "websocket is not open", "already closed", "econnreset", "epipe", "ebadf"]

/-- `isTerminalSocketError`: falsy errors are not terminal; otherwise
the lower-cased message is tested against the six substrings. -/
def isTerminalSocketError (error : ErrVal) : Bool :=
  match error with
  | ErrVal.vnull => false
  | _ =>
    let normalized := toLowerAscii (errMessage error)
    strIncludes normalized "connection closed" ||
    (strIncludes normalized "websocket is not open" ||
    (strIncludes normalized "already closed" ||
    (strIncludes normalized "econnreset" ||
    (strIncludes normalized "epipe" ||
    strIncludes normalized "ebadf"))))

/-- Observable steps of the error/close handlers. -/
inductive ErrEmit where
  | errorEv
  | closeEv
  | readyRejected
  deriving DecidableEq

/-- State fragment relevant to the error handler. -/
structure ErrState where
  isClosed : Bool
  settledReady : Bool
  readyState : Nat

/-- `SignalingChannel.completeClose`: idempotent transition to closed;
rejects the ready signal when it is still pending, then emits `close`
exactly once. Listener detachment and emitter clearing have no
observable effect here. -/
def completeClose (st : ErrState) : ErrState × List ErrEmit :=
  if st.isClosed then (st, [])
  else
    ({ st with isClosed := true, settledReady := true },
      (if st.settledReady then [] else [ErrEmit.readyRejected]) ++ [ErrEmit.closeEv])

/-- The node socket `error` handler of `attachNodeSocket`. -/
def handleError (st : ErrState) (error : ErrVal) : ErrState × List ErrEmit :=
  if st.isClosed ∨ isTerminalSocketError error then
    if ¬ st.isClosed ∧ st.readyState ≠ 1 then completeClose st
    else (st, [])
  else
    let (st1, pre) :=
      if st.settledReady then (st, [])
      else ({ st with settledReady := true }, [ErrEmit.readyRejected])
    (st1, pre ++ [ErrEmit.errorEv])

/-!
## QUIC offer candidate normalisation (`src/quic.ts`)
-/

/-- Match of the anchored bracket pattern: open bracket, a nonempty run
of non-bracket characters, close bracket, colon, then a nonempty run of
ASCII digits to the end. Returns the host and port character runs. -/
def bracketMatch (cs : List Char) : Option (List Char × List Char) :=
  match cs with
  | b :: rest =>
    if b = '[' then
      let host := rest.takeWhile (fun c => c ≠ ']')
      match rest.dropWhile (fun c => c ≠ ']') with
      | c1 :: c2 :: port =>
        if c1 = ']' ∧ c2 = ':' ∧ host ≠ [] ∧ port ≠ [] ∧ port.all Char.isDigit then
          some (host, port)
        else none
      | _ => none
    else none
  | [] => none

/-- Split at the last colon (`lastIndexOf(":")` plus the two slices);
`none` when no colon occurs. -/
def splitLastColon (cs : List Char) : Option (List Char × List Char) :=
  let rev := cs.reverse
  match rev.dropWhile (fun c => c ≠ ':') with
  | c :: revHost =>
    if c = ':' then some (revHost.reverse, (rev.takeWhile (fun c => c ≠ ':')).reverse)
    else none
  | [] => none

/-- `normalizeCandidate`: coerce to string, trim, then rewrite
any-address hosts to loopback. The branch on `splitLastColon` mirrors
the source checks `index <= 0` (no colon, or empty host) and
`index === value.length - 1` (empty port). -/
def normalizeCandidate (candidate : Json) : String :=
  let value := jsTrim (jsToString (jsOr candidate (Json.str "")))
  if value = "" then value
  else
    match bracketMatch value.toList with
    | some (host, port) =>
      if host = [':', ':'] ∨ host = "0:0:0:0:0:0:0:0".toList then "[::1]:" ++ String.mk port
      else value
    | none =>
      match splitLastColon value.toList with
      | none => value
      | some (host, port) =>
        if host = [] ∨ port = [] then value
        else if ¬ port.all Char.isDigit then value
        else if host = "0.0.0.0".toList then "127.0.0.1:" ++ String.mk port
        else if host = [':', ':'] then "[::1]:" ++ String.mk port
        else value

/-- Replace the value stored under an existing key of an object,
preserving key order (the object spread in `normalizeOfferCandidates`). -/
def jsSetKey (v : Json) (key : String) (newValue : Json) : Json :=
  match v with
  | Json.obj fields => Json.obj (fields.map (fun f => if f.1 = key then (f.1, newValue) else f))
  | other => other

/-- `normalizeOfferCandidates`: when the offer carries a nonempty
candidates array, map every element through `normalizeCandidate`. -/
def normalizeOfferCandidates (offer : Json) : Json :=
  match jsGet offer "candidates" with
  | Json.arr cs =>
    if cs.length = 0 then offer
    else jsSetKey offer "candidates" (Json.arr (cs.map (fun c => Json.str (normalizeCandidate c))))
  | _ => offer

/-- `QuicPeerServer.offer`: the native module returns the offer JSON
(already incorporating any advertised candidate list); the wrapper
parses it and normalises the candidates. The parsed native offer is the
argument here. -/
def quicPeerServerOffer (nativeOffer : Json) : Json :=
  normalizeOfferCandidates nativeOffer

/-!
## Direct-first negotiation flows (`src/quic_session.ts`)

The two async flows are embedded as deterministic functions of an
oracle fixing the outcomes of every await point: the native transport
results, the inbound signaling event stream with arrival times (in
milliseconds from the start of the flow), and the durations of the
relay bind calls. Timers follow the source: a `withTimeout` race is won
by the promise when it settles strictly before the deadline. The
produced trace records the observable side effects in order.
-/

/-- `parseRelayInfo` of the source (object check, trim the three
mandatory fields, reject empties). -/
structure RelayInfo where
  session_id : String
  quic_addr : String
  server_fingerprint_sha256 : String
  alpn : Json
  server_name : Json

/-- `parseRelayInfo`. -/
def parseRelayInfo (raw : Json) : Except String RelayInfo :=
  if ¬ isObjectLike raw then Except.error "Invalid quic_relay payload"
  else
    let sid := jsTrim (jsToString (jsOr (jsGet raw "session_id") (Json.str "")))
    let qa := jsTrim (jsToString (jsOr (jsGet raw "quic_addr") (Json.str "")))
    let fp := jsTrim (jsToString (jsOr (jsGet raw "server_fingerprint_sha256") (Json.str "")))
    if sid = "" ∨ qa = "" ∨ fp = "" then Except.error "Invalid quic_relay payload fields"
    else Except.ok ⟨sid, qa, fp, jsGet raw "alpn", jsGet raw "server_name"⟩

/-- `isRelayPayload`. -/
def isRelayPayloadB (ev : SigEvent) : Bool :=
  match ev.payload with
  | SigPayload.quicRelay _ => true
  | _ => false

/-- `isOfferPayload`. -/
def isOfferPayloadB (ev : SigEvent) : Bool :=
  match ev.payload with
  | SigPayload.quicOffer _ => true
  | _ => false

/-- The `relay` field access on a relay payload (`undefined`, modelled
`null`, on any other variant). -/
def relayValue : SigPayload → Json
  | SigPayload.quicRelay relay => relay
  | _ => Json.null

/-- First event in the stream satisfying the predicate. -/
def findFirstMatch (pred : SigEvent → Bool) : List (Nat × SigEvent) → Option (Nat × SigEvent)
  | [] => none
  | (t, ev) :: rest => if pred ev then some (t, ev) else findFirstMatch pred rest

/-- `waitForSessionEvent` as settle time plus outcome: resolve with the
first matching event when it arrives strictly before the timeout,
reject with the timeout message otherwise. (Channel `error` and `close`
rejections, which the source also converts into rejections of this
wait, are subsumed by the error outcome.) All call sites pass a
positive timeout. -/
def waitForSessionEvent (pred : SigEvent → Bool) (timeoutMs : Nat)
    (stream : List (Nat × SigEvent)) : Nat × Except String SigEvent :=
  match findFirstMatch pred stream with
  | some (t, ev) =>
    if t < timeoutMs then (t, Except.ok ev)
    else (timeoutMs, Except.error "Timed out waiting for signaling event")
  | none => (timeoutMs, Except.error "Timed out waiting for signaling event")

/-- The relay bind retry loop (`while (!peerReady && Date.now() <
deadline)`): each iteration sleeps 100 ms and calls `relayBind` again
(the call taking `durs i` ms). Returns the loop outcome, the results of
the loop calls in order, and the clock when the loop stops. The clock
starts at 0 when the deadline of `budget` ms is computed. -/
def bindLoopGo (bind : Nat → Bool) (durs : Nat → Nat) (budget : Nat) (i now : Nat) :
    Bool × List Bool × Nat :=
  if h : now < budget then
    let now' := now + 100 + durs i
    if bind i then (true, [true], now')
    else
      let r := bindLoopGo bind durs budget (i + 1) now'
      (r.1, false :: r.2.1, r.2.2)
  else (false, [], now)
termination_by budget - now
decreasing_by simp_wf; omega

/-- The full relay bind phase: one unconditional call, then the retry
loop when it returned false. Returns `peerReady` and the results of all
bind calls in order. -/
def relayBindPhase (bind : Nat → Bool) (durs : Nat → Nat) (budget : Nat) : Bool × List Bool :=
  if bind 0 then (true, [true])
  else
    let r := bindLoopGo bind durs budget 1 0
    (r.1, false :: r.2.1)

/-- Observable side effects of a negotiation flow, in order. -/
inductive NegEff where
  | offerSent (cmd : SignalingCommandWire)
  | directAccepted
  | directConnected
  | transportConnected
  | bindCall (token sessionId : String) (result : Bool)
  | answerSent (cmd : SignalingCommandWire)

/-- A resolved `QuicDirectFirstResult`. -/
inductive NegResult where
  | direct (sessionId peerAgentId : String)
  | relay (sessionId peerAgentId : String) (relay : RelayInfo) (peerReady : Bool) (token : String)

/-- The options consumed by the flows (`directTimeoutMs` defaulted to
5000; the bind addresses and advertised candidates only feed the native
layer and do not steer the modelled control flow). -/
structure DirectFirstOptions where
  directTimeoutMs : Option Nat
  token : String

/-- Native-transport outcomes for the relay path. -/
structure TransportOracle where
  transportOk : Bool
  bindResults : Nat → Bool
  bindDurs : Nat → Nat

/-- Oracle for one initiator run: the parsed native offer JSON, the
resolution time of the direct accept (`none`: it never resolves, or
rejects), and the inbound signaling stream. -/
structure InitiatorOracle where
  rawOffer : Json
  acceptAt : Option Nat
  stream : List (Nat × SigEvent)
  transport : TransportOracle

/-- Oracle for one responder run: whether the guarded direct connect
resolves, and the inbound signaling stream. -/
structure ResponderOracle where
  connectOk : Bool
  stream : List (Nat × SigEvent)
  transport : TransportOracle

/-- `channel.sendQuicOffer` inside a flow: active check plus validated
command construction (the socket write is covered by the channel
model). -/
def sendOfferCmd (chClosed : Bool) (targetAgentId : String) (offer : Json) :
    Except String SignalingCommandWire :=
  if chClosed then Except.error "signaling channel closed"
  else opCommand (SendOp.offer targetAgentId offer)

/-- `channel.sendQuicAnswer` inside a flow. -/
def sendAnswerCmd (chClosed : Bool) (sessionId targetAgentId : String) (answer : Json) :
    Except String SignalingCommandWire :=
  if chClosed then Except.error "signaling channel closed"
  else opCommand (SendOp.answer sessionId targetAgentId answer)

/-- The answer body sent on a direct success. -/
def answerBody (mode : String) : Json :=
  Json.obj [("accepted", Json.bool true), ("mode", Json.str mode)]

/-- Relay transport setup plus the bind phase, shared by both flows:
`QuicRelayClient.create(...).connectTransport(relay)` followed by the
`relayBind` retry loop with deadline `budget`. -/
def relayPhase (tOr : TransportOracle) (budget : Nat) (token sessionId : String) :
    Except String (Bool × List NegEff) :=
  if ¬ tOr.transportOk then Except.error "connectTransport failed"
  else
    let r := relayBindPhase tOr.bindResults tOr.bindDurs budget
    Except.ok (r.1, NegEff.transportConnected :: r.2.map (fun b => NegEff.bindCall token sessionId b))

/-- The relay tail of the responder: await the relay event, parse it,
connect the relay transport, run the bind loop, send the relay answer,
return the relay handle. `pre` is the trace accumulated before the
fall-through. -/
def respondRelayTail (chClosed : Bool) (opts : DirectFirstOptions) (o : ResponderOracle)
    (sessionId peerAgentId : String) (relayOutcome : Except String SigEvent)
    (pre : List NegEff) : Except String (NegResult × List NegEff) := do
  let d := opts.directTimeoutMs.getD 5000
  let ev ← relayOutcome
  let info ← parseRelayInfo (relayValue ev.payload)
  let (peerReady, effs) ← relayPhase o.transport (max 2000 d) opts.token sessionId
  let cmd ← sendAnswerCmd chClosed sessionId peerAgentId (answerBody "relay")
  Except.ok (NegResult.relay sessionId peerAgentId info peerReady opts.token,
    pre ++ effs ++ [NegEff.answerSent cmd])

/-- `respondQuicOfferDirectFirst`. -/
def respondQuicOfferDirectFirst (chClosed : Bool) (offerEvent : SigEvent)
    (opts : DirectFirstOptions) (cachedRelayEvent : Option SigEvent) (o : ResponderOracle) :
    Except String (NegResult × List NegEff) :=
  if ¬ isOfferPayloadB offerEvent then Except.error "offerEvent must have quic_offer payload"
  else
    let d := opts.directTimeoutMs.getD 5000
    let peerAgentId := offerEvent.fromAgent
    let sessionId := offerEvent.sessionId
    let relayTimeoutMs := max 10000 (d * 5)
    let relayOutcome : Except String SigEvent :=
      match cachedRelayEvent with
      | some ce =>
        if isRelayPayloadB ce ∧ ce.sessionId = sessionId then Except.ok ce
        else (waitForSessionEvent (fun ev => ev.sessionId = sessionId ∧ isRelayPayloadB ev)
          relayTimeoutMs o.stream).2
      | none =>
        (waitForSessionEvent (fun ev => ev.sessionId = sessionId ∧ isRelayPayloadB ev)
          relayTimeoutMs o.stream).2
    if o.connectOk then
      match sendAnswerCmd chClosed sessionId peerAgentId (answerBody "direct") with
      | Except.ok cmd =>
        Except.ok (NegResult.direct sessionId peerAgentId,
          [NegEff.directConnected, NegEff.answerSent cmd])
      | Except.error _ =>
        -- the try block also covers the answer send: a failure there
        -- falls through to the relay path
        respondRelayTail chClosed opts o sessionId peerAgentId relayOutcome
          [NegEff.directConnected]
    else
      respondRelayTail chClosed opts o sessionId peerAgentId relayOutcome []

/-- The relay tail of the initiator: await the (already raced) relay
event promise, connect the relay transport, run the bind loop, return
the relay handle. -/
def initiateRelayTail (opts : DirectFirstOptions) (o : InitiatorOracle)
    (peerAgentId : String) (relayOutcome : Except String (String × RelayInfo))
    (pre : List NegEff) : Except String (NegResult × List NegEff) := do
  let d := opts.directTimeoutMs.getD 5000
  let (sessionId, info) ← relayOutcome
  let (peerReady, effs) ← relayPhase o.transport (max 2000 d) opts.token sessionId
  Except.ok (NegResult.relay sessionId peerAgentId info peerReady opts.token, pre ++ effs)

/-- `initiateQuicSessionDirectFirst`. The relay-event promise is shared
between the grace wait and the fall-through path (a settled promise
retains its outcome), hence it is computed once as settle time plus
outcome. -/
def initiateQuicSessionDirectFirst (chClosed : Bool) (peerAgentId : String)
    (opts : DirectFirstOptions) (o : InitiatorOracle) :
    Except String (NegResult × List NegEff) :=
  let d := opts.directTimeoutMs.getD 5000
  let offer := quicPeerServerOffer o.rawOffer
  match sendOfferCmd chClosed peerAgentId offer with
  | Except.error e => Except.error e
  | Except.ok offerCmd =>
    let relayDeadline := max 2000 d
    let relayRaw :=
      waitForSessionEvent (fun ev => ev.fromAgent = peerAgentId ∧ isRelayPayloadB ev)
        relayDeadline o.stream
    let relaySettled : Nat × Except String (String × RelayInfo) :=
      (relayRaw.1,
        match relayRaw.2 with
        | Except.ok ev =>
          match parseRelayInfo (relayValue ev.payload) with
          | Except.ok info => Except.ok (ev.sessionId, info)
          | Except.error e => Except.error e
        | Except.error e => Except.error e)
    let directOutcome : Option Nat :=
      match o.acceptAt with
      | some t => if d = 0 ∨ t < d then some t else none
      | none => none
    match directOutcome with
    | some tA =>
      if relaySettled.1 < tA + 2000 then
        match relaySettled.2 with
        | Except.ok (sessionId, _) =>
          Except.ok (NegResult.direct sessionId peerAgentId,
            [NegEff.offerSent offerCmd, NegEff.directAccepted])
        | Except.error _ =>
          initiateRelayTail opts o peerAgentId relaySettled.2
            [NegEff.offerSent offerCmd, NegEff.directAccepted]
      else
        initiateRelayTail opts o peerAgentId relaySettled.2
          [NegEff.offerSent offerCmd, NegEff.directAccepted]
    | none =>
      initiateRelayTail opts o peerAgentId relaySettled.2 [NegEff.offerSent offerCmd]

/-!
## Theorems
-/

/-- Successful send-operation validation fully determines the command:
target and session id are the trimmed arguments and the payload follows
the operation. The session id is nonempty. -/
theorem opCommand_ok_offer {targetAgentId : String} {offer : Json} {cmd : SignalingCommandWire}
    (h : opCommand (SendOp.offer targetAgentId offer) = Except.ok cmd) :
    cmd = ⟨jsTrim targetAgentId, none, WirePayload.quicOffer offer⟩ ∧ jsTrim targetAgentId ≠ "" := by
  by_cases hta : jsTrim targetAgentId = "" <;>
    simp [opCommand, requireAgentId, hta, bind, Except.bind] at h
  exact ⟨h.symm, hta⟩

/-- Characterisation of a successful `sendQuicAnswer` validation. -/
theorem sendAnswerCmd_ok {chClosed : Bool} {sessionId targetAgentId : String} {answer : Json}
    {cmd : SignalingCommandWire}
    (h : sendAnswerCmd chClosed sessionId targetAgentId answer = Except.ok cmd) :
    cmd = ⟨jsTrim targetAgentId, some (jsTrim sessionId), WirePayload.quicAnswer answer⟩ ∧
      jsTrim sessionId ≠ "" ∧ jsTrim targetAgentId ≠ "" := by
  by_cases hc : chClosed <;>
    by_cases hsid : jsTrim sessionId = "" <;>
    by_cases hta : jsTrim targetAgentId = "" <;>
    simp [sendAnswerCmd, opCommand, requireSessionId, requireAgentId, hc, hsid, hta,
      bind, Except.bind] at h
  exact ⟨h.symm, hsid, hta⟩

/-- C8 (claim): sends with an empty or whitespace-only target agent id
(offer) or session id (answer, candidate, disconnect) fail validation
with the corresponding error before any frame is written or enqueued
(the operation returns the error without producing a state), and every
send on a closed channel fails with the closed-channel error. -/
theorem send_validation_and_closed :
    (∀ (st : ChannelState) (targetAgentId : String) (offer : Json),
      st.isClosed = false → jsTrim targetAgentId = "" →
      applyOp st (SendOp.offer targetAgentId offer) =
        Except.error "target agent_id is required for signaling") ∧
    (∀ (st : ChannelState) (sessionId targetAgentId : String) (x : Json) (r : Option Json),
      st.isClosed = false → jsTrim sessionId = "" →
      applyOp st (SendOp.answer sessionId targetAgentId x) =
        Except.error "session_id is required for signaling" ∧
      applyOp st (SendOp.candidate sessionId targetAgentId x) =
        Except.error "session_id is required for signaling" ∧
      applyOp st (SendOp.disconnect sessionId targetAgentId r) =
        Except.error "session_id is required for signaling") ∧
    (∀ (st : ChannelState) (op : SendOp), st.isClosed = true →
      applyOp st op = Except.error "signaling channel closed") := by
  refine ⟨?_, ?_, ?_⟩
  · intro st targetAgentId offer hcl htrim
    simp [applyOp, hcl, opCommand, requireAgentId, htrim, bind, Except.bind]
  · intro st sessionId targetAgentId x r hcl htrim
    refine ⟨?_, ?_, ?_⟩ <;>
      simp [applyOp, hcl, opCommand, requireSessionId, htrim, bind, Except.bind]
  · intro st op hcl
    simp [applyOp, hcl]

/-- Witness for C8 at concrete inputs. -/
theorem send_validation_and_closed_witness :
    applyOp ChannelState.initial (SendOp.offer "   " Json.null) =
      Except.error "target agent_id is required for signaling" ∧
    applyOp ChannelState.initial (SendOp.answer " " "peer-B" Json.null) =
      Except.error "session_id is required for signaling" ∧
    applyOp { ChannelState.initial with isClosed := true } (SendOp.disconnect "S" "peer-B" none) =
      Except.error "signaling channel closed" :=
  ⟨send_validation_and_closed.1 ChannelState.initial "   " Json.null rfl rfl,
    (send_validation_and_closed.2.1 ChannelState.initial " " "peer-B" Json.null none rfl rfl).1,
    send_validation_and_closed.2.2 _ (SendOp.disconnect "S" "peer-B" none) rfl⟩

/-- `takeWhile` passes over a block of satisfying elements. -/
theorem takeWhile_append_all {p : Char → Bool} :
    ∀ (a b : List Char), (∀ c ∈ a, p c = true) →
      (a ++ b).takeWhile p = a ++ b.takeWhile p := by
  intro a
  induction a with
  | nil => intro b _; simp
  | cons x t ih =>
    intro b ha
    have hx : p x = true := ha x (by simp)
    simp only [List.cons_append, List.takeWhile_cons, hx, if_true]
    rw [ih b (fun c hc => ha c (by simp [hc]))]

/-- `dropWhile` passes over a block of satisfying elements. -/
theorem dropWhile_append_all {p : Char → Bool} :
    ∀ (a b : List Char), (∀ c ∈ a, p c = true) →
      (a ++ b).dropWhile p = b.dropWhile p := by
  intro a
  induction a with
  | nil => intro b _; simp
  | cons x t ih =>
    intro b ha
    have hx : p x = true := ha x (by simp)
    simp only [List.cons_append, List.dropWhile_cons, hx, if_true]
    exact ih b (fun c hc => ha c (by simp [hc]))

/-- A string none of whose characters are whitespace trims to itself. -/
theorem jsTrim_eq_self {s : String} (h : ∀ c ∈ s.toList, isJsWs c = false) : jsTrim s = s := by
  have h1 : s.toList.dropWhile isJsWs = s.toList := by
    cases hs : s.toList with
    | nil => rfl
    | cons x t =>
      have : isJsWs x = false := h x (by rw [hs]; simp)
      simp [List.dropWhile_cons, this]
  have h2 : s.toList.reverse.dropWhile isJsWs = s.toList.reverse := by
    cases hs : s.toList.reverse with
    | nil => rfl
    | cons x t =>
      have hx : x ∈ s.toList := by
        rw [← List.mem_reverse, hs]; simp
      have : isJsWs x = false := h x hx
      simp [List.dropWhile_cons, this]
  show String.mk (((s.toList.dropWhile isJsWs).reverse.dropWhile isJsWs).reverse) = s
  rw [h1, h2, List.reverse_reverse]
  rfl

/-- Digits are not JavaScript whitespace. -/
theorem isDigit_not_ws {c : Char} (h : c.isDigit = true) : isJsWs c = false := by
  simp only [Char.isDigit] at h
  simp only [isJsWs, decide_eq_false_iff_not]
  intro hmem
  rcases hmem with h1 | h1 | h1 | h1 | h1 | h1 <;> subst h1 <;> simp_all

/-- Digits are not colons. -/
theorem isDigit_ne_colon {c : Char} (h : c.isDigit = true) : (decide ¬(c = ':')) = true := by
  simp only [decide_not, decide_eq_true_eq] at *
  simp only [Bool.not_eq_true', decide_eq_false_iff_not]
  intro hc
  subst hc
  simp [Char.isDigit] at h

/-- A nonempty string has a nonempty character list. -/
theorem toList_ne_nil {s : String} (h : s ≠ "") : s.toList ≠ [] := by
  intro hl
  exact h (congrArg String.mk hl)

/-- Decomposition of a successful last-colon split. -/
theorem splitLastColon_decomp {cs host port : List Char}
    (h : splitLastColon cs = some (host, port)) : cs = host ++ ':' :: port := by
  simp only [splitLastColon] at h
  cases hd : cs.reverse.dropWhile (fun c => decide ¬(c = ':')) with
  | nil => rw [hd] at h; simp at h
  | cons c tl =>
    rw [hd] at h
    by_cases hc : c = ':'
    · simp only [hc, if_true, Option.some.injEq, Prod.mk.injEq] at h
      obtain ⟨hh, hp⟩ := h
      have hsplit := List.takeWhile_append_dropWhile
        (p := fun c => decide ¬(c = ':')) (l := cs.reverse)
      rw [hd, hc] at hsplit
      have : cs.reverse.reverse =
          ((cs.reverse.takeWhile (fun c => decide ¬(c = ':'))) ++ ':' :: tl).reverse :=
        congrArg List.reverse hsplit.symm
      rw [List.reverse_reverse] at this
      rw [this, List.reverse_append, List.reverse_cons, ← hh, ← hp]
      simp
    · simp [hc] at h

/-- Decomposition of a successful bracket-pattern match. -/
theorem bracketMatch_decomp {cs host port : List Char}
    (h : bracketMatch cs = some (host, port)) :
    cs = '[' :: host ++ ']' :: ':' :: port ∧ host ≠ [] ∧ port ≠ [] ∧
      port.all Char.isDigit = true := by
  cases cs with
  | nil => simp [bracketMatch] at h
  | cons b rest =>
    simp only [bracketMatch] at h
    split at h
    case isTrue hb =>
      split at h
      case h_1 c1 c2 port' hd =>
        split at h
        case isTrue hg =>
          simp only [Option.some.injEq, Prod.mk.injEq] at h
          obtain ⟨hh, hp⟩ := h
          obtain ⟨hc1, hc2, hne, hpne, hdig⟩ := hg
          have hsplit := List.takeWhile_append_dropWhile
            (p := fun c => decide ¬(c = ']')) (l := rest)
          rw [hd, hc1, hc2] at hsplit
          refine ⟨?_, ?_, ?_, ?_⟩
          · rw [hb, ← hsplit, hh, hp]; simp
          · rw [← hh]; exact hne
          · rw [← hp]; exact hpne
          · rw [← hp]; exact hdig
        case isFalse hg => simp at h
      case h_2 hd => simp at h
    case isFalse hb => simp at h

/-- `splitLastColon` on a list whose suffix after the final colon is
colon-free returns the two slices. -/
theorem splitLastColon_append (host port : List Char)
    (hport : ∀ c ∈ port, (decide ¬(c = ':')) = true) :
    splitLastColon (host ++ ':' :: port) = some (host, port) := by
  have hrev : (host ++ ':' :: port).reverse = port.reverse ++ ':' :: host.reverse := by
    simp
  simp only [splitLastColon, hrev]
  rw [dropWhile_append_all _ _ (fun c hc => hport c (List.mem_reverse.1 hc)),
    takeWhile_append_all _ _ (fun c hc => hport c (List.mem_reverse.1 hc))]
  simp [List.dropWhile_cons, List.takeWhile_cons]

/-- `bracketMatch` never fires without a leading bracket. -/
theorem bracketMatch_not_bracket {b : Char} (hb : ¬ b = '[') (rest : List Char) :
    bracketMatch (b :: rest) = none := by
  simp [bracketMatch, hb]

/-- `bracketMatch` on a well-shaped bracketed host and digit port. -/
theorem bracketMatch_of_shape (host port : List Char)
    (hhost : ∀ c ∈ host, (decide ¬(c = ']')) = true) (hne : host ≠ []) (hpne : port ≠ [])
    (hdig : port.all Char.isDigit = true) :
    bracketMatch ('[' :: host ++ ']' :: ':' :: port) = some (host, port) := by
  rw [List.cons_append]
  simp only [bracketMatch, if_pos rfl]
  rw [takeWhile_append_all _ _ hhost, dropWhile_append_all _ _ hhost]
  simp [List.dropWhile_cons, List.takeWhile_cons, hne, hpne, hdig]

/-- The trimmed string coercion at the head of `normalizeCandidate`,
evaluated on a string value. -/
theorem normalizeCandidate_value_str (s : String) :
    jsTrim (jsToString (jsOr (Json.str s) (Json.str ""))) = jsTrim s := rfl

/-- `normalizeCandidate` rewrites `0.0.0.0:P` to loopback. -/
theorem normalizeCandidate_v4any (P : String) (hP : P ≠ "")
    (hdig : P.toList.all Char.isDigit = true) :
    normalizeCandidate (Json.str ("0.0.0.0:" ++ P)) = "127.0.0.1:" ++ P := by
  have hdig' : ∀ c ∈ P.toList, c.isDigit = true := fun c hc => List.all_eq_true.1 hdig c hc
  have htl : ("0.0.0.0:" ++ P).toList = "0.0.0.0".toList ++ ':' :: P.toList := by
    show ("0.0.0.0:" ++ P).data = _
    rw [String.data_append]
    rfl
  have htrim : jsTrim ("0.0.0.0:" ++ P) = "0.0.0.0:" ++ P := by
    apply jsTrim_eq_self
    rw [htl]
    intro c hc
    rcases List.mem_append.1 hc with hc | hc
    · have h7 : "0.0.0.0".toList = ['0', '.', '0', '.', '0', '.', '0'] := rfl
      rw [h7] at hc
      fin_cases hc <;> rfl
    · rcases List.mem_cons.1 hc with hc | hc
      · subst hc; rfl
      · exact isDigit_not_ws (hdig' c hc)
  have hne : ("0.0.0.0:" ++ P) ≠ "" := by
    intro he
    have := congrArg String.toList he
    rw [htl] at this
    simp at this
  have hbm : bracketMatch ("0.0.0.0:" ++ P).toList = none := by
    rw [htl]
    exact bracketMatch_not_bracket (by decide) _
  have hsl : splitLastColon ("0.0.0.0:" ++ P).toList = some ("0.0.0.0".toList, P.toList) := by
    rw [htl]
    exact splitLastColon_append _ _ (fun c hc => isDigit_ne_colon (hdig' c hc))
  simp only [normalizeCandidate, normalizeCandidate_value_str, htrim, if_neg hne, hbm, hsl]
  rw [if_pos trivial, if_neg (by simp; exact toList_ne_nil hP),
    if_neg (by simp; exact fun x hx => hdig' x hx)]
  rfl

/-- `normalizeCandidate` rewrites a bracketed IPv6 any address to
loopback. -/
theorem normalizeCandidate_v6any (P : String) (hP : P ≠ "")
    (hdig : P.toList.all Char.isDigit = true) :
    normalizeCandidate (Json.str ("[::]:" ++ P)) = "[::1]:" ++ P := by
  have hdig' : ∀ c ∈ P.toList, c.isDigit = true := fun c hc => List.all_eq_true.1 hdig c hc
  have htl : ("[::]:" ++ P).toList = '[' :: [':', ':'] ++ ']' :: ':' :: P.toList := by
    show ("[::]:" ++ P).data = _
    rw [String.data_append]
    rfl
  have htrim : jsTrim ("[::]:" ++ P) = "[::]:" ++ P := by
    apply jsTrim_eq_self
    rw [htl]
    intro c hc
    rcases List.mem_append.1 hc with hc | hc
    · have h7 : ('[' :: [':', ':'] : List Char) = ['[', ':', ':'] := rfl
      rw [h7] at hc
      fin_cases hc <;> rfl
    · rcases List.mem_cons.1 hc with hc | hc
      · subst hc; rfl
      · rcases List.mem_cons.1 hc with hc | hc
        · subst hc; rfl
        · exact isDigit_not_ws (hdig' c hc)
  have hne : ("[::]:" ++ P) ≠ "" := by
    intro he
    have := congrArg String.toList he
    rw [htl] at this
    simp at this
  have hbm : bracketMatch ("[::]:" ++ P).toList = some ([':', ':'], P.toList) := by
    rw [htl]
    exact bracketMatch_of_shape _ _ (by decide) (by decide) (toList_ne_nil hP) hdig
  simp only [normalizeCandidate, normalizeCandidate_value_str, htrim, if_neg hne, hbm]
  rw [if_pos (Or.inl trivial)]
  rfl

/-- `normalizeCandidate` rewrites the long-form bracketed IPv6 any
address to loopback. -/
theorem normalizeCandidate_v6long (P : String) (hP : P ≠ "")
    (hdig : P.toList.all Char.isDigit = true) :
    normalizeCandidate (Json.str ("[0:0:0:0:0:0:0:0]:" ++ P)) = "[::1]:" ++ P := by
  have hdig' : ∀ c ∈ P.toList, c.isDigit = true := fun c hc => List.all_eq_true.1 hdig c hc
  have htl : ("[0:0:0:0:0:0:0:0]:" ++ P).toList =
      '[' :: "0:0:0:0:0:0:0:0".toList ++ ']' :: ':' :: P.toList := by
    show ("[0:0:0:0:0:0:0:0]:" ++ P).data = _
    rw [String.data_append]
    rfl
  have htrim : jsTrim ("[0:0:0:0:0:0:0:0]:" ++ P) = "[0:0:0:0:0:0:0:0]:" ++ P := by
    apply jsTrim_eq_self
    have htlA : ("[0:0:0:0:0:0:0:0]:" ++ P).toList =
        "[0:0:0:0:0:0:0:0]:".toList ++ P.toList := by
      show ("[0:0:0:0:0:0:0:0]:" ++ P).data = _
      rw [String.data_append]
      rfl
    rw [htlA]
    intro c hc
    rcases List.mem_append.1 hc with hc | hc
    · have h7 : "[0:0:0:0:0:0:0:0]:".toList =
          ['[', '0', ':', '0', ':', '0', ':', '0', ':', '0', ':', '0', ':', '0', ':', '0',
            ']', ':'] := rfl
      rw [h7] at hc
      fin_cases hc <;> rfl
    · exact isDigit_not_ws (hdig' c hc)
  have hne : ("[0:0:0:0:0:0:0:0]:" ++ P) ≠ "" := by
    intro he
    have := congrArg String.toList he
    rw [htl] at this
    simp at this
  have hbm : bracketMatch ("[0:0:0:0:0:0:0:0]:" ++ P).toList =
      some ("0:0:0:0:0:0:0:0".toList, P.toList) := by
    rw [htl]
    exact bracketMatch_of_shape _ _ (by decide) (by decide) (toList_ne_nil hP) hdig
  simp only [normalizeCandidate, normalizeCandidate_value_str, htrim, if_neg hne, hbm]
  rw [if_pos (Or.inr trivial)]
  rfl

/-- `normalizeCandidate` rewrites the unbracketed IPv6 any-address
host to loopback. -/
theorem normalizeCandidate_v6bare (P : String) (hP : P ≠ "")
    (hdig : P.toList.all Char.isDigit = true) :
    normalizeCandidate (Json.str (":::" ++ P)) = "[::1]:" ++ P := by
  have hdig' : ∀ c ∈ P.toList, c.isDigit = true := fun c hc => List.all_eq_true.1 hdig c hc
  have htl : (":::" ++ P).toList = [':', ':'] ++ ':' :: P.toList := by
    show (":::" ++ P).data = _
    rw [String.data_append]
    rfl
  have htlB : (":::" ++ P).toList = ':' :: ':' :: ':' :: P.toList := by
    show (":::" ++ P).data = _
    rw [String.data_append]
    rfl
  have htrim : jsTrim (":::" ++ P) = ":::" ++ P := by
    apply jsTrim_eq_self
    rw [htlB]
    intro c hc
    rcases List.mem_cons.1 hc with hc | hc
    · subst hc; rfl
    · rcases List.mem_cons.1 hc with hc | hc
      · subst hc; rfl
      · rcases List.mem_cons.1 hc with hc | hc
        · subst hc; rfl
        · exact isDigit_not_ws (hdig' c hc)
  have hne : (":::" ++ P) ≠ "" := by
    intro he
    have := congrArg String.toList he
    rw [htlB] at this
    simp at this
  have hbm : bracketMatch ((":::" ++ P).toList) = none := by
    rw [htlB]
    exact bracketMatch_not_bracket (by decide) _
  have hsl : splitLastColon ((":::" ++ P).toList) = some ([':', ':'], P.toList) := by
    rw [htl]
    exact splitLastColon_append _ _ (fun c hc => isDigit_ne_colon (hdig' c hc))
  simp only [normalizeCandidate, normalizeCandidate_value_str, htrim, if_neg hne, hbm, hsl]
  rw [if_neg (by simp; exact toList_ne_nil hP), if_neg (by simp; exact fun x hx => hdig' x hx),
    if_neg (by decide), if_pos trivial]
  rfl

/-- The trimmed value of a candidate. -/
def candidateValue (c : Json) : String :=
  jsTrim (jsToString (jsOr c (Json.str "")))

/-- On a string candidate the trimmed value is the trimmed string. -/
theorem candidateValue_str (s : String) : candidateValue (Json.str s) = jsTrim s := rfl

/-- The body of `normalizeCandidate`, as a function of the trimmed
coerced value only. -/
theorem normalizeCandidate_body (c : Json) :
    normalizeCandidate c =
      (if candidateValue c = "" then candidateValue c
       else
        match bracketMatch (candidateValue c).toList with
        | some (host, port) =>
          if host = [':', ':'] ∨ host = "0:0:0:0:0:0:0:0".toList then "[::1]:" ++ String.mk port
          else candidateValue c
        | none =>
          match splitLastColon (candidateValue c).toList with
          | none => candidateValue c
          | some (host, port) =>
            if host = [] ∨ port = [] then candidateValue c
            else if ¬ port.all Char.isDigit then candidateValue c
            else if host = "0.0.0.0".toList then "127.0.0.1:" ++ String.mk port
            else if host = [':', ':'] then "[::1]:" ++ String.mk port
            else candidateValue c) := rfl

/-- `normalizeCandidate` depends on its argument only through the
trimmed string coercion. -/
theorem normalizeCandidate_congr {c d : Json} (h : candidateValue c = candidateValue d) :
    normalizeCandidate c = normalizeCandidate d := by
  rw [normalizeCandidate_body c, normalizeCandidate_body d, h]

/-- The IPv4 any-address spelling is already trimmed. -/
theorem candidateValue_str_v4 (P : String) (hdig' : ∀ c ∈ P.toList, c.isDigit = true) :
    candidateValue (Json.str ("0.0.0.0:" ++ P)) = "0.0.0.0:" ++ P := by
  show jsTrim ("0.0.0.0:" ++ P) = "0.0.0.0:" ++ P
  apply jsTrim_eq_self
  have htlA : ("0.0.0.0:" ++ P).toList = "0.0.0.0:".toList ++ P.toList := by
    show ("0.0.0.0:" ++ P).data = _
    rw [String.data_append]
    rfl
  rw [htlA]
  intro c hc
  rcases List.mem_append.1 hc with hc | hc
  · have h7 : "0.0.0.0:".toList = ['0', '.', '0', '.', '0', '.', '0', ':'] := rfl
    rw [h7] at hc
    fin_cases hc <;> rfl
  · exact isDigit_not_ws (hdig' c hc)

/-- The bracketed IPv6 any-address spelling is already trimmed. -/
theorem candidateValue_str_v6 (P : String) (hdig' : ∀ c ∈ P.toList, c.isDigit = true) :
    candidateValue (Json.str ("[::]:" ++ P)) = "[::]:" ++ P := by
  show jsTrim ("[::]:" ++ P) = "[::]:" ++ P
  apply jsTrim_eq_self
  have htlA : ("[::]:" ++ P).toList = "[::]:".toList ++ P.toList := by
    show ("[::]:" ++ P).data = _
    rw [String.data_append]
    rfl
  rw [htlA]
  intro c hc
  rcases List.mem_append.1 hc with hc | hc
  · have h7 : "[::]:".toList = ['[', ':', ':', ']', ':'] := rfl
    rw [h7] at hc
    fin_cases hc <;> rfl
  · exact isDigit_not_ws (hdig' c hc)

/-- The long-form bracketed IPv6 any-address spelling is already
trimmed. -/
theorem candidateValue_str_v6long (P : String) (hdig' : ∀ c ∈ P.toList, c.isDigit = true) :
    candidateValue (Json.str ("[0:0:0:0:0:0:0:0]:" ++ P)) = "[0:0:0:0:0:0:0:0]:" ++ P := by
  show jsTrim ("[0:0:0:0:0:0:0:0]:" ++ P) = "[0:0:0:0:0:0:0:0]:" ++ P
  apply jsTrim_eq_self
  have htlA : ("[0:0:0:0:0:0:0:0]:" ++ P).toList = "[0:0:0:0:0:0:0:0]:".toList ++ P.toList := by
    show ("[0:0:0:0:0:0:0:0]:" ++ P).data = _
    rw [String.data_append]
    rfl
  rw [htlA]
  intro c hc
  rcases List.mem_append.1 hc with hc | hc
  · have h7 : "[0:0:0:0:0:0:0:0]:".toList =
        ['[', '0', ':', '0', ':', '0', ':', '0', ':', '0', ':', '0', ':', '0', ':', '0',
          ']', ':'] := rfl
    rw [h7] at hc
    fin_cases hc <;> rfl
  · exact isDigit_not_ws (hdig' c hc)

/-- The unbracketed IPv6 any-address spelling is already trimmed. -/
theorem candidateValue_str_v6bare (P : String) (hdig' : ∀ c ∈ P.toList, c.isDigit = true) :
    candidateValue (Json.str (":::" ++ P)) = ":::" ++ P := by
  show jsTrim (":::" ++ P) = ":::" ++ P
  apply jsTrim_eq_self
  have htlA : (":::" ++ P).toList = ":::".toList ++ P.toList := by
    show (":::" ++ P).data = _
    rw [String.data_append]
    rfl
  rw [htlA]
  intro c hc
  rcases List.mem_append.1 hc with hc | hc
  · have h7 : ":::".toList = [':', ':', ':'] := rfl
    rw [h7] at hc
    fin_cases hc <;> rfl
  · exact isDigit_not_ws (hdig' c hc)

/-- Complete characterisation of `normalizeCandidate`: the result is
the trimmed string coercion of the candidate, except that the four
any-address spellings with a digit port are rewritten to loopback. -/
theorem normalizeCandidate_characterization (c : Json) :
    normalizeCandidate c = candidateValue c ∨
    ∃ port : List Char, port ≠ [] ∧ port.all Char.isDigit = true ∧
      ((((candidateValue c).toList = "[::]:".toList ++ port ∨
          (candidateValue c).toList = "[0:0:0:0:0:0:0:0]:".toList ++ port ∨
          (candidateValue c).toList = ":::".toList ++ port) ∧
        normalizeCandidate c = "[::1]:" ++ String.mk port) ∨
       ((candidateValue c).toList = "0.0.0.0:".toList ++ port ∧
        normalizeCandidate c = "127.0.0.1:" ++ String.mk port)) := by
  have hval : normalizeCandidate c =
      (if candidateValue c = "" then candidateValue c
       else
        match bracketMatch (candidateValue c).toList with
        | some (host, port) =>
          if host = [':', ':'] ∨ host = "0:0:0:0:0:0:0:0".toList then "[::1]:" ++ String.mk port
          else candidateValue c
        | none =>
          match splitLastColon (candidateValue c).toList with
          | none => candidateValue c
          | some (host, port) =>
            if host = [] ∨ port = [] then candidateValue c
            else if ¬ port.all Char.isDigit then candidateValue c
            else if host = "0.0.0.0".toList then "127.0.0.1:" ++ String.mk port
            else if host = [':', ':'] then "[::1]:" ++ String.mk port
            else candidateValue c) := rfl
  by_cases hemp : candidateValue c = ""
  · left
    rw [hval, if_pos hemp]
  · cases hbm : bracketMatch (candidateValue c).toList with
    | some hp =>
      obtain ⟨host, port⟩ := hp
      have hres : normalizeCandidate c =
          (if host = [':', ':'] ∨ host = "0:0:0:0:0:0:0:0".toList
            then "[::1]:" ++ String.mk port else candidateValue c) := by
        rw [hval, if_neg hemp, hbm]
      obtain ⟨hshape, hne, hpne, hdig⟩ := bracketMatch_decomp hbm
      by_cases hh : host = [':', ':'] ∨ host = "0:0:0:0:0:0:0:0".toList
      · refine Or.inr ⟨port, hpne, hdig, Or.inl ⟨?_, by rw [hres, if_pos hh]⟩⟩
        rcases hh with hh | hh <;> subst hh
        · exact Or.inl (by rw [hshape]; rfl)
        · exact Or.inr (Or.inl (by rw [hshape]; rfl))
      · rw [hres, if_neg hh]
        exact Or.inl rfl
    | none =>
      cases hsl : splitLastColon (candidateValue c).toList with
      | none =>
        left
        rw [hval, if_neg hemp, hbm, hsl]
      | some hp =>
        obtain ⟨host, port⟩ := hp
        have hres : normalizeCandidate c =
            (if host = [] ∨ port = [] then candidateValue c
             else if ¬ port.all Char.isDigit then candidateValue c
             else if host = "0.0.0.0".toList then "127.0.0.1:" ++ String.mk port
             else if host = [':', ':'] then "[::1]:" ++ String.mk port
             else candidateValue c) := by
          rw [hval, if_neg hemp, hbm, hsl]
        have hshape := splitLastColon_decomp hsl
        by_cases h1 : host = [] ∨ port = []
        · rw [hres, if_pos h1]; exact Or.inl rfl
        · by_cases h2 : port.all Char.isDigit
          · by_cases h3 : host = "0.0.0.0".toList
            · refine Or.inr ⟨port, fun hp0 => h1 (Or.inr hp0), h2, Or.inr ⟨?_, ?_⟩⟩
              · rw [hshape, h3]; rfl
              · rw [hres, if_neg h1, if_neg (by simpa using h2), if_pos h3]
            · by_cases h4 : host = [':', ':']
              · refine Or.inr ⟨port, fun hp0 => h1 (Or.inr hp0), h2,
                  Or.inl ⟨Or.inr (Or.inr ?_), ?_⟩⟩
                · rw [hshape, h4]; rfl
                · rw [hres, if_neg h1, if_neg (by simpa using h2), if_neg h3, if_pos h4]
              · rw [hres, if_neg h1, if_neg (by simpa using h2), if_neg h3, if_neg h4]
                exact Or.inl rfl
          · rw [hres, if_neg h1, if_pos (by simpa using h2)]
            exact Or.inl rfl

/-- Replacing the value at a key commutes with first-match lookup. -/
theorem find_map_setKey :
    ∀ (fields : List (String × Json)) (key : String) (v : Json),
      (fields.map (fun f => if f.1 = key then (f.1, v) else f)).find? (fun f => f.1 = key) =
        (fields.find? (fun f => f.1 = key)).map (fun f => (f.1, v)) := by
  intro fields key v
  induction fields with
  | nil => rfl
  | cons g t ih =>
    by_cases hg : g.1 = key
    · simp [List.find?, hg]
    · simp [List.find?, hg, ih]

/-- After `jsSetKey` on a key the object owns, lookup returns the new
value. -/
theorem jsGet_setKey {off : Json} {cs : List Json}
    (h : jsGet off "candidates" = Json.arr cs) (v : Json) :
    jsGet (jsSetKey off "candidates" v) "candidates" = v := by
  cases off with
  | obj fields =>
    simp only [jsGet, jsSetKey] at h ⊢
    cases hf : fields.find? (fun f => f.1 = "candidates") with
    | none => rw [hf] at h; exact absurd h (fun he => Json.noConfusion he)
    | some f =>
      rw [find_map_setKey, hf]
      rfl
  | null => exact absurd h (fun he => Json.noConfusion he)
  | bool b => exact absurd h (fun he => Json.noConfusion he)
  | num n => exact absurd h (fun he => Json.noConfusion he)
  | str s => exact absurd h (fun he => Json.noConfusion he)
  | arr es => exact absurd h (fun he => Json.noConfusion he)

/-- C10 (amended claim): in every offer produced by
`QuicPeerServer.offer` with a nonempty candidate array, every candidate
is replaced by its normalisation; the normalisation rewrites every
candidate whose trimmed string value is `0.0.0.0:P` (digit port `P`) to
`127.0.0.1:P`, rewrites every candidate whose trimmed value is
`[::]:P`, `[0:0:0:0:0:0:0:0]:P` or `:::P` to `[::1]:P`, and replaces
every other candidate by its trimmed string coercion — unchanged when
it is already a trimmed string. -/
theorem offer_candidates_normalised :
    (∀ (off : Json) (cs : List Json), jsGet off "candidates" = Json.arr cs → cs ≠ [] →
      jsGet (quicPeerServerOffer off) "candidates" =
        Json.arr (cs.map (fun cand => Json.str (normalizeCandidate cand)))) ∧
    (∀ (cand : Json) (P : String), P ≠ "" → P.toList.all Char.isDigit = true →
      (candidateValue cand = "0.0.0.0:" ++ P → normalizeCandidate cand = "127.0.0.1:" ++ P) ∧
      (candidateValue cand = "[::]:" ++ P → normalizeCandidate cand = "[::1]:" ++ P) ∧
      (candidateValue cand = "[0:0:0:0:0:0:0:0]:" ++ P →
        normalizeCandidate cand = "[::1]:" ++ P) ∧
      (candidateValue cand = ":::" ++ P → normalizeCandidate cand = "[::1]:" ++ P)) ∧
    (∀ cand : Json,
      normalizeCandidate cand = candidateValue cand ∨
      ∃ port : List Char, port ≠ [] ∧ port.all Char.isDigit = true ∧
        ((((candidateValue cand).toList = "[::]:".toList ++ port ∨
            (candidateValue cand).toList = "[0:0:0:0:0:0:0:0]:".toList ++ port ∨
            (candidateValue cand).toList = ":::".toList ++ port) ∧
          normalizeCandidate cand = "[::1]:" ++ String.mk port) ∨
         ((candidateValue cand).toList = "0.0.0.0:".toList ++ port ∧
          normalizeCandidate cand = "127.0.0.1:" ++ String.mk port))) := by
  refine ⟨?_, ?_, normalizeCandidate_characterization⟩
  · intro off cs h hne
    simp only [quicPeerServerOffer, normalizeOfferCandidates, h]
    rw [if_neg (by simpa using hne)]
    exact jsGet_setKey h _
  · intro cand P hP hdig
    have hdig' : ∀ ch ∈ P.toList, ch.isDigit = true := fun ch hc => List.all_eq_true.1 hdig ch hc
    refine ⟨fun hcv => ?_, fun hcv => ?_, fun hcv => ?_, fun hcv => ?_⟩
    · rw [normalizeCandidate_congr (hcv.trans (candidateValue_str_v4 P hdig').symm)]
      exact normalizeCandidate_v4any P hP hdig
    · rw [normalizeCandidate_congr (hcv.trans (candidateValue_str_v6 P hdig').symm)]
      exact normalizeCandidate_v6any P hP hdig
    · rw [normalizeCandidate_congr (hcv.trans (candidateValue_str_v6long P hdig').symm)]
      exact normalizeCandidate_v6long P hP hdig
    · rw [normalizeCandidate_congr (hcv.trans (candidateValue_str_v6bare P hdig').symm)]
      exact normalizeCandidate_v6bare P hP hdig

/-- Witness for C10 at a concrete offer, at all four any-address
spellings. -/
theorem offer_candidates_normalised_witness :
    jsGet (quicPeerServerOffer (Json.obj [("candidates",
        Json.arr [Json.str "0.0.0.0:9000", Json.str "[::]:443", Json.str "10.0.0.5:1"])]))
        "candidates" =
      Json.arr [Json.str "127.0.0.1:9000", Json.str "[::1]:443", Json.str "10.0.0.5:1"] ∧
    normalizeCandidate (Json.str "0.0.0.0:9000") = "127.0.0.1:" ++ "9000" ∧
    normalizeCandidate (Json.str "[::]:9000") = "[::1]:" ++ "9000" ∧
    normalizeCandidate (Json.str "[0:0:0:0:0:0:0:0]:9000") = "[::1]:" ++ "9000" ∧
    normalizeCandidate (Json.str ":::9000") = "[::1]:" ++ "9000" := by
  refine ⟨?_, ?_, ?_, ?_, ?_⟩
  · have h := offer_candidates_normalised.1
      (Json.obj [("candidates",
        Json.arr [Json.str "0.0.0.0:9000", Json.str "[::]:443", Json.str "10.0.0.5:1"])])
      [Json.str "0.0.0.0:9000", Json.str "[::]:443", Json.str "10.0.0.5:1"] rfl (by simp)
    exact h.trans rfl
  · exact (offer_candidates_normalised.2.1 (Json.str "0.0.0.0:9000") "9000"
      (by decide) (by decide)).1 rfl
  · exact (offer_candidates_normalised.2.1 (Json.str "[::]:9000") "9000"
      (by decide) (by decide)).2.1 rfl
  · exact (offer_candidates_normalised.2.1 (Json.str "[0:0:0:0:0:0:0:0]:9000") "9000"
      (by decide) (by decide)).2.2.1 rfl
  · exact (offer_candidates_normalised.2.1 (Json.str ":::9000") "9000"
      (by decide) (by decide)).2.2.2 rfl

/-- Counterexample to C10 as stated: the long-form IPv6 any-address
candidate is not equal to `0.0.0.0:P` or `[::]:P`, yet the offer
normalisation changes it. -/
theorem offer_candidates_normalised_cex :
    quicPeerServerOffer
        (Json.obj [("candidates", Json.arr [Json.str "[0:0:0:0:0:0:0:0]:80"])]) =
      Json.obj [("candidates", Json.arr [Json.str "[::1]:80"])] ∧
    ("[::1]:80" : String) ≠ "[0:0:0:0:0:0:0:0]:80" :=
  ⟨rfl, by decide⟩

/-- A serialised object is never the empty string. -/
theorem stringify_obj_ne_empty (fs : List (String × Json)) : Json.stringify (Json.obj fs) ≠ "" := by
  intro h
  have hl := congrArg String.length h
  simp only [Json.stringify, String.length_append] at hl
  simp at hl
  exact absurd hl.1.1 (by decide)

/-- Every serialised send frame is nonempty. -/
theorem opFrame_ne_empty (op : SendOp) : opFrame op ≠ "" := by
  cases op <;> exact stringify_obj_ne_empty _

/-- Draining the queue writes every nonempty frame in order. -/
theorem flushLoop_eq_append :
    ∀ (fs written : List String), (∀ f ∈ fs, f ≠ "") → flushLoop fs written = written ++ fs := by
  intro fs
  induction fs with
  | nil => intro written _; simp [flushLoop]
  | cons f rest ih =>
    intro written hne
    have hf : f ≠ "" := hne f (by simp)
    simp only [flushLoop, if_neg hf]
    rw [ih (written ++ [f]) (fun g hg => hne g (by simp [hg]))]
    simp

/-- A successful send on a not-yet-open socket only appends the frame
to the pending queue. -/
theorem applyOp_ok_pending {st st' : ChannelState} {op : SendOp}
    (hrs : st.readyState ≠ 1) (h : applyOp st op = Except.ok st') :
    st' = { st with pendingFrames := st.pendingFrames ++ [opFrame op] } := by
  cases hcl : st.isClosed with
  | true => simp [applyOp, hcl] at h
  | false =>
    cases op with
    | offer t o =>
      by_cases hta : jsTrim t = "" <;>
        simp [applyOp, hcl, opCommand, requireAgentId, hta, bind, Except.bind, sendCommand,
          opRequiresSessionId, hrs] at h
      simp only [opFrame]
      exact h.symm
    | answer sid t x =>
      by_cases hsid : jsTrim sid = "" <;> by_cases hta : jsTrim t = "" <;>
        simp [applyOp, hcl, opCommand, requireAgentId, requireSessionId, hsid, hta, bind,
          Except.bind, sendCommand, opRequiresSessionId, hrs] at h
      simp only [opFrame]
      exact h.symm
    | candidate sid t x =>
      by_cases hsid : jsTrim sid = "" <;> by_cases hta : jsTrim t = "" <;>
        simp [applyOp, hcl, opCommand, requireAgentId, requireSessionId, hsid, hta, bind,
          Except.bind, sendCommand, opRequiresSessionId, hrs] at h
      simp only [opFrame]
      exact h.symm
    | disconnect sid t r =>
      by_cases hsid : jsTrim sid = "" <;> by_cases hta : jsTrim t = "" <;>
        simp [applyOp, hcl, opCommand, requireAgentId, requireSessionId, hsid, hta, bind,
          Except.bind, sendCommand, opRequiresSessionId, hrs] at h
      simp only [opFrame]
      exact h.symm

/-- A successful sequence of sends on a not-yet-open socket appends the
frames to the pending queue in submission order, touching nothing else. -/
theorem applyOps_ok_pending :
    ∀ (ops : List SendOp) (st st' : ChannelState), st.readyState ≠ 1 →
      applyOps st ops = Except.ok st' →
      st' = { st with pendingFrames := st.pendingFrames ++ ops.map opFrame } := by
  intro ops
  induction ops with
  | nil =>
    intro st st' _ hap
    simp only [applyOps, Except.ok.injEq] at hap
    simp [← hap]
  | cons op rest ih =>
    intro st st' hrs hap
    simp only [applyOps, bind, Except.bind] at hap
    cases hop : applyOp st op with
    | error e => rw [hop] at hap; simp at hap
    | ok st1 =>
      rw [hop] at hap
      have h1 := applyOp_ok_pending hrs hop
      have h2 := ih st1 st' (by rw [h1]; exact hrs) hap
      subst h1
      simp only [List.map_cons] at *
      rw [h2]
      simp

/-- C1 (claim): every sequence of commands submitted through the send
operations while the socket is still connecting is enqueued as JSON
strings in submission order; the socket `open` event drains the queue
head-to-tail, writing each frame exactly once, so the written sequence
equals the submission sequence. -/
theorem queued_sends_flush_in_order :
    ∀ (ops : List SendOp) (st' : ChannelState),
      applyOps ChannelState.initial ops = Except.ok st' →
      st'.written = [] ∧ st'.pendingFrames = ops.map opFrame ∧
      (handleOpen st').written = ops.map opFrame ∧
      (handleOpen st').pendingFrames = [] := by
  intro ops st' h
  have hst := applyOps_ok_pending ops ChannelState.initial st'
    (by simp [ChannelState.initial]) h
  subst hst
  refine ⟨rfl, by simp [ChannelState.initial], ?_, ?_⟩ <;>
    cases hops : ops.map opFrame with
    | nil => simp [handleOpen, flushQueue, ChannelState.initial, hops]
    | cons f rest =>
      have hne : ∀ g ∈ ops.map opFrame, g ≠ "" := by
        intro g hg
        obtain ⟨op, -, hop⟩ := List.mem_map.1 hg
        rw [← hop]; exact opFrame_ne_empty op
      rw [hops] at hne
      simp [handleOpen, flushQueue, ChannelState.initial, hops,
        flushLoop_eq_append (f :: rest) [] hne]

/-- Witness for C1: the disconnect-then-offer submission sequence on a
fresh connecting channel flushes exactly those two frames in order. -/
theorem queued_sends_flush_in_order_witness :
    ∃ st', applyOps ChannelState.initial
        [SendOp.disconnect "S5" "peer-B" (some (Json.str "bye")),
          SendOp.offer "peer-A" Json.null] = Except.ok st' ∧
      st'.written = [] ∧
      st'.pendingFrames =
        [SendOp.disconnect "S5" "peer-B" (some (Json.str "bye")),
          SendOp.offer "peer-A" Json.null].map opFrame ∧
      (handleOpen st').written =
        [SendOp.disconnect "S5" "peer-B" (some (Json.str "bye")),
          SendOp.offer "peer-A" Json.null].map opFrame ∧
      (handleOpen st').pendingFrames = [] :=
  ⟨_, rfl, queued_sends_flush_in_order _ _ rfl⟩

/-- The four recognised inbound event names, in source order. -/
def recognizedEvents : List String :=
  ["signaling", "session", "control", "heartbeat"]

/-- A parsed inbound frame is dispatched exactly when it is an object
(or array) whose `event` field strictly equals one of the four
recognised names and whose `payload` field is truthy. -/
def frameRecognized (j : Json) : Bool :=
  isObjectLike j &&
    recognizedEvents.any (fun s => isStrEq (jsGet j "event") s) &&
    jsTruthy (jsGet j "payload")

/-- C2 (amended claim): for every inbound text frame, if the frame
parses to an object whose `event` is one of the four recognised names
and whose `payload` is truthy, exactly one typed event is dispatched
(after the `raw` event) and its family equals the `event` string; for
every other frame — unparseable input, non-object, unrecognised event,
or falsy payload — nothing is dispatched, and dispatch has no failure
outcome (`handleMessagePayload` is total). -/
theorem inbound_dispatch_families :
    (∀ j : Json,
      (frameRecognized j = true →
        ∃ ev, handleMessagePayload (some j) = [Emitted.raw ev, Emitted.typed ev] ∧
          jsGet j "event" = Json.str ev.family) ∧
      (frameRecognized j = false → handleMessagePayload (some j) = [])) ∧
    handleMessagePayload none = [] := by
  refine ⟨?_, rfl⟩
  intro j
  by_cases hobj : isObjectLike j = true
  case neg =>
    refine ⟨fun hrec => ?_, fun _ => ?_⟩
    · simp [frameRecognized, hobj] at hrec
    · simp [handleMessagePayload, normalizeSocketEvent, hobj]
  case pos =>
    by_cases hpay : jsTruthy (jsGet j "payload") = true
    case neg =>
      refine ⟨fun hrec => ?_, fun _ => ?_⟩
      · simp [frameRecognized, hpay] at hrec
      · simp [handleMessagePayload, normalizeSocketEvent, hobj, hpay]
    case pos =>
      by_cases h1 : isStrEq (jsGet j "event") "signaling" = true
      · have hev : jsGet j "event" = Json.str "signaling" := by
          revert h1; cases jsGet j "event" <;> simp [isStrEq]
        have htr : jsTruthy (jsGet j "event") = true := by rw [hev]; rfl
        refine ⟨fun _ => ?_, fun hrec => ?_⟩
        · exact ⟨TypedEvent.signaling (normalizeSignalingEvent (jsGet j "payload")),
            by simp [handleMessagePayload, normalizeSocketEvent, hobj, hpay, htr, h1],
            by rw [hev]; rfl⟩
        · simp [frameRecognized, hobj, hpay, recognizedEvents, h1] at hrec
      · by_cases h2 : isStrEq (jsGet j "event") "session" = true
        · have hev : jsGet j "event" = Json.str "session" := by
            revert h2; cases jsGet j "event" <;> simp [isStrEq]
          have htr : jsTruthy (jsGet j "event") = true := by rw [hev]; rfl
          refine ⟨fun _ => ?_, fun hrec => ?_⟩
          · exact ⟨TypedEvent.session (normalizeSessionEvent (jsGet j "payload")),
              by simp [handleMessagePayload, normalizeSocketEvent, hobj, hpay, htr, h1, h2],
              by rw [hev]; rfl⟩
          · simp [frameRecognized, hobj, hpay, recognizedEvents, h2] at hrec
        · by_cases h3 : isStrEq (jsGet j "event") "control" = true
          · have hev : jsGet j "event" = Json.str "control" := by
              revert h3; cases jsGet j "event" <;> simp [isStrEq]
            have htr : jsTruthy (jsGet j "event") = true := by rw [hev]; rfl
            refine ⟨fun _ => ?_, fun hrec => ?_⟩
            · exact ⟨TypedEvent.control (normalizeControlEvent (jsGet j "payload")),
                by simp [handleMessagePayload, normalizeSocketEvent, hobj, hpay, htr, h1, h2, h3],
                by rw [hev]; rfl⟩
            · simp [frameRecognized, hobj, hpay, recognizedEvents, h3] at hrec
          · by_cases h4 : isStrEq (jsGet j "event") "heartbeat" = true
            · have hev : jsGet j "event" = Json.str "heartbeat" := by
                revert h4; cases jsGet j "event" <;> simp [isStrEq]
              have htr : jsTruthy (jsGet j "event") = true := by rw [hev]; rfl
              refine ⟨fun _ => ?_, fun hrec => ?_⟩
              · exact ⟨TypedEvent.heartbeat (normalizeHeartbeat (jsGet j "payload")),
                  by simp [handleMessagePayload, normalizeSocketEvent, hobj, hpay, htr,
                    h1, h2, h3, h4],
                  by rw [hev]; rfl⟩
              · simp [frameRecognized, hobj, hpay, recognizedEvents, h4] at hrec
            · refine ⟨fun hrec => ?_, fun _ => ?_⟩
              · simp [frameRecognized, hobj, hpay, recognizedEvents, h1, h2, h3, h4] at hrec
              · by_cases htr : jsTruthy (jsGet j "event") = true
                · simp [handleMessagePayload, normalizeSocketEvent, hobj, hpay, htr,
                    h1, h2, h3, h4]
                · simp [handleMessagePayload, normalizeSocketEvent, hobj, hpay, htr]

/-- Witness for C2 at concrete inputs: a recognised heartbeat frame
dispatches its typed event; an unrecognised event name dispatches
nothing. -/
theorem inbound_dispatch_families_witness :
    (∃ ev,
      handleMessagePayload
        (some (Json.obj [("event", Json.str "heartbeat"),
          ("payload", Json.obj [("agent_id", Json.str "a")])])) =
        [Emitted.raw ev, Emitted.typed ev] ∧
      jsGet (Json.obj [("event", Json.str "heartbeat"),
          ("payload", Json.obj [("agent_id", Json.str "a")])]) "event" = Json.str ev.family) ∧
    handleMessagePayload
      (some (Json.obj [("event", Json.str "nonsense"), ("payload", Json.obj [])])) = [] :=
  ⟨((inbound_dispatch_families.1 _).1 rfl),
    ((inbound_dispatch_families.1 _).2 rfl)⟩

/-- Counterexample to C2 as stated: the frame with event "heartbeat"
and payload 0 has a recognised event and a non-null payload, yet the
code dispatches nothing (`!payload` drops every falsy payload, not only
null). -/
theorem inbound_dispatch_families_cex :
    jsGet (Json.obj [("event", Json.str "heartbeat"), ("payload", Json.num 0)]) "event" =
        Json.str "heartbeat" ∧
    jsGet (Json.obj [("event", Json.str "heartbeat"), ("payload", Json.num 0)]) "payload" =
        Json.num 0 ∧
    Json.num 0 ≠ Json.null ∧
    handleMessagePayload
      (some (Json.obj [("event", Json.str "heartbeat"), ("payload", Json.num 0)])) = [] :=
  ⟨rfl, rfl, fun h => Json.noConfusion h, rfl⟩

/-- First non-nullish value in the priority list, defaulting to the
whole payload object. Written to the words of the claim: "the carried
value is taken from the kind-named key first, then from the payload
key, then the whole payload object, in that priority". -/
def firstNonNullish (values : List Json) (whole : Json) : Json :=
  match values with
  | [] => whole
  | v :: rest => if v.isNull then firstNonNullish rest whole else v

/-- The discriminant the claim describes: the nested `kind` field,
falling back to `type`, compared case-insensitively (lower-cased);
"reject" when both are nullish. Written to the words of the claim. -/
def specSelectedKind (payload : Json) : String :=
  if (jsGet payload "kind").isNull then
    if (jsGet payload "type").isNull then "reject"
    else toLowerAscii (jsToString (jsGet payload "type"))
  else toLowerAscii (jsToString (jsGet payload "kind"))

/-- Decoder written to the words of the claim and spec: variant selected
by `specSelectedKind`; each QUIC kind takes its value by
`firstNonNullish` priority; unrecognised kinds decode to a reject whose
reason defaults to "unknown". -/
def specDecodeSignalingPayload (payload : Json) : SigPayload :=
  let k := specSelectedKind payload
  if k = "quic_offer" then
    SigPayload.quicOffer (firstNonNullish [jsGet payload "offer", jsGet payload "payload"] payload)
  else if k = "quic_answer" then
    SigPayload.quicAnswer (firstNonNullish [jsGet payload "answer", jsGet payload "payload"] payload)
  else if k = "quic_candidate" then
    SigPayload.quicCandidate
      (firstNonNullish [jsGet payload "candidate", jsGet payload "payload"] payload)
  else if k = "quic_relay" then
    SigPayload.quicRelay (firstNonNullish [jsGet payload "relay", jsGet payload "payload"] payload)
  else if k = "disconnect" then
    SigPayload.disconnect (jsGet payload "reason")
  else
    SigPayload.reject
      (if (jsGet payload "reason").isNull then Json.str "unknown" else jsGet payload "reason")

/-- C7 (claim): the source decoder agrees with the claim-shaped decoder
on every payload — the variant is selected by the nested kind field
falling back to type, case-insensitively; unrecognised kinds decode to
a reject with reason defaulting to "unknown"; each QUIC kind takes its
value from the kind-named key, then the payload key, then the whole
payload object. -/
theorem signaling_payload_decode_spec :
    ∀ payload : Json, normalizeSignalingPayload payload = specDecodeSignalingPayload payload := by
  intro payload
  by_cases hk : (jsGet payload "kind").isNull = true
  · by_cases ht : (jsGet payload "type").isNull = true
    · have hr : toLowerAscii (jsToString (Json.str "reject")) = "reject" := rfl
      simp [normalizeSignalingPayload, specDecodeSignalingPayload, specSelectedKind,
        firstNonNullish, jsOr, hk, ht, hr]
    · simp [normalizeSignalingPayload, specDecodeSignalingPayload, specSelectedKind,
        firstNonNullish, jsOr, hk, ht]
  · simp [normalizeSignalingPayload, specDecodeSignalingPayload, specSelectedKind,
      firstNonNullish, jsOr, hk]

/-- C5 (claim): an error is classified terminal exactly when its
lower-cased message contains one of the six substrings; on a live (not
yet closed) channel a terminal error never reaches the `error` event
and transitions the channel to closed — emitting `close` exactly once —
precisely when the socket ready state is not open; a non-terminal error
is emitted on `error` and rejects the still-pending ready signal. -/
theorem terminal_error_handling :
    (∀ e : ErrVal, isTerminalSocketError e =
      terminalSubstrings.any (fun sub => strIncludes (toLowerAscii (errMessage e)) sub)) ∧
    (∀ (st : ErrState) (e : ErrVal), st.isClosed = false →
      (isTerminalSocketError e = true →
        ErrEmit.errorEv ∉ (handleError st e).2 ∧
        ((((handleError st e).2.count ErrEmit.closeEv = 1) ∧ (handleError st e).1.isClosed = true) ↔
          st.readyState ≠ 1)) ∧
      (isTerminalSocketError e = false →
        ErrEmit.errorEv ∈ (handleError st e).2 ∧
        (st.settledReady = false →
          ErrEmit.readyRejected ∈ (handleError st e).2 ∧
          (handleError st e).1.settledReady = true))) := by
  constructor
  · intro e
    cases e <;>
      simp [isTerminalSocketError, terminalSubstrings, errMessage, List.any_cons, List.any_nil,
        Bool.or_assoc]
    exact ⟨rfl, rfl, rfl, rfl, rfl, rfl⟩
  · intro st e hcl
    constructor
    · intro hterm
      by_cases hrs : st.readyState = 1
      · simp [handleError, hcl, hterm, hrs]
      · by_cases hsr : st.settledReady <;>
          simp [handleError, completeClose, hcl, hterm, hrs, hsr]
    · intro hterm
      by_cases hsr : st.settledReady <;>
        simp [handleError, hcl, hterm, hsr]

/-- Witness for C5: a live unsettled channel with a connecting socket,
hit first by the terminal "read ECONNRESET" error, then (separately) by
a non-terminal error. -/
theorem terminal_error_handling_witness :
    (ErrEmit.errorEv ∉ (handleError ⟨false, false, 0⟩ (ErrVal.verr "read ECONNRESET")).2 ∧
      ((((handleError ⟨false, false, 0⟩ (ErrVal.verr "read ECONNRESET")).2.count ErrEmit.closeEv
            = 1) ∧
        (handleError ⟨false, false, 0⟩ (ErrVal.verr "read ECONNRESET")).1.isClosed = true) ↔
        (⟨false, false, 0⟩ : ErrState).readyState ≠ 1)) ∧
    (ErrEmit.errorEv ∈ (handleError ⟨false, false, 0⟩ (ErrVal.verr "boom")).2 ∧
      ((⟨false, false, 0⟩ : ErrState).settledReady = false →
        ErrEmit.readyRejected ∈ (handleError ⟨false, false, 0⟩ (ErrVal.verr "boom")).2 ∧
        (handleError ⟨false, false, 0⟩ (ErrVal.verr "boom")).1.settledReady = true)) :=
  ⟨(terminal_error_handling.2 ⟨false, false, 0⟩ (ErrVal.verr "read ECONNRESET") rfl).1 rfl,
    (terminal_error_handling.2 ⟨false, false, 0⟩ (ErrVal.verr "boom") rfl).2 rfl⟩

/-- Is the operation an offer send? -/
def SendOp.isOffer : SendOp → Bool
  | SendOp.offer _ _ => true
  | _ => false

/-- C9 (claim): every validated outbound command serialises as an
object with keys type, session_id, to, payload in that order, with
`type` equal to "signal"; the `session_id` key is omitted exactly for
`quic_offer` commands and carries a nonempty string for all other
kinds. -/
theorem wire_shape_session_id :
    ∀ (op : SendOp) (cmd : SignalingCommandWire), opCommand op = Except.ok cmd →
      (op.isOffer = true → cmd.session_id = none ∧
        wireToJson cmd = Json.obj [("type", Json.str "signal"), ("to", Json.str cmd.toAgent),
          ("payload", wirePayloadToJson cmd.payload)]) ∧
      (op.isOffer = false → ∃ s, cmd.session_id = some s ∧ s ≠ "" ∧
        wireToJson cmd = Json.obj [("type", Json.str "signal"), ("session_id", Json.str s),
          ("to", Json.str cmd.toAgent), ("payload", wirePayloadToJson cmd.payload)]) := by
  intro op cmd h
  cases op with
  | offer targetAgentId offer =>
    refine ⟨fun _ => ?_, fun hfalse => by simp [SendOp.isOffer] at hfalse⟩
    obtain ⟨hcmd, -⟩ := opCommand_ok_offer h
    subst hcmd
    exact ⟨rfl, rfl⟩
  | answer sessionId targetAgentId x =>
    refine ⟨fun htrue => by simp [SendOp.isOffer] at htrue, fun _ => ?_⟩
    by_cases hsid : jsTrim sessionId = "" <;>
      by_cases hta : jsTrim targetAgentId = "" <;>
      simp [opCommand, requireSessionId, requireAgentId, hsid, hta, bind, Except.bind] at h
    subst h
    exact ⟨jsTrim sessionId, rfl, hsid, rfl⟩
  | candidate sessionId targetAgentId x =>
    refine ⟨fun htrue => by simp [SendOp.isOffer] at htrue, fun _ => ?_⟩
    by_cases hsid : jsTrim sessionId = "" <;>
      by_cases hta : jsTrim targetAgentId = "" <;>
      simp [opCommand, requireSessionId, requireAgentId, hsid, hta, bind, Except.bind] at h
    subst h
    exact ⟨jsTrim sessionId, rfl, hsid, rfl⟩
  | disconnect sessionId targetAgentId r =>
    refine ⟨fun htrue => by simp [SendOp.isOffer] at htrue, fun _ => ?_⟩
    by_cases hsid : jsTrim sessionId = "" <;>
      by_cases hta : jsTrim targetAgentId = "" <;>
      simp [opCommand, requireSessionId, requireAgentId, hsid, hta, bind, Except.bind] at h
    subst h
    exact ⟨jsTrim sessionId, rfl, hsid, rfl⟩

/-- Witness for C9: an offer command has no session_id key, an answer
command has a nonempty one. -/
theorem wire_shape_session_id_witness :
    ((SendOp.offer "peer-A" Json.null).isOffer = true →
      (⟨"peer-A", none, WirePayload.quicOffer Json.null⟩ : SignalingCommandWire).session_id = none ∧
      wireToJson ⟨"peer-A", none, WirePayload.quicOffer Json.null⟩ =
        Json.obj [("type", Json.str "signal"), ("to", Json.str "peer-A"),
          ("payload", wirePayloadToJson (WirePayload.quicOffer Json.null))]) ∧
    ((SendOp.answer "S1" "peer-B" Json.null).isOffer = false →
      ∃ s, (⟨"peer-B", some "S1", WirePayload.quicAnswer Json.null⟩ : SignalingCommandWire).session_id
          = some s ∧ s ≠ "" ∧
        wireToJson ⟨"peer-B", some "S1", WirePayload.quicAnswer Json.null⟩ =
          Json.obj [("type", Json.str "signal"), ("session_id", Json.str s),
            ("to", Json.str "peer-B"),
            ("payload", wirePayloadToJson (WirePayload.quicAnswer Json.null))]) :=
  ⟨(wire_shape_session_id (SendOp.offer "peer-A" Json.null) _ rfl).1,
    (wire_shape_session_id (SendOp.answer "S1" "peer-B" Json.null) _ rfl).2⟩

/-- Structural facts about the retry loop: when it gives up, the
deadline has elapsed; an empty result list means it gave up; a nonempty
result list ends with the loop outcome; every result except the last is
false. -/
theorem bindLoopGo_spec (bind : Nat → Bool) (durs : Nat → Nat) (budget i now : Nat) :
    ((bindLoopGo bind durs budget i now).1 = false →
      budget ≤ (bindLoopGo bind durs budget i now).2.2) ∧
    ((bindLoopGo bind durs budget i now).2.1 = [] →
      (bindLoopGo bind durs budget i now).1 = false) ∧
    ((bindLoopGo bind durs budget i now).2.1 ≠ [] →
      (bindLoopGo bind durs budget i now).2.1.getLast? =
        some (bindLoopGo bind durs budget i now).1) ∧
    (∀ b ∈ (bindLoopGo bind durs budget i now).2.1.dropLast, b = false) := by
  by_cases h : now < budget
  · by_cases hb : bind i
    · rw [bindLoopGo]
      simp [h, hb]
    · have ih := bindLoopGo_spec bind durs budget (i + 1) (now + 100 + durs i)
      rw [bindLoopGo]
      simp only [h, dif_pos, hb, if_false, Bool.false_eq_true]
      refine ⟨fun hf => ih.1 hf, fun he => by simp at he, fun _ => ?_, ?_⟩
      · cases hl : (bindLoopGo bind durs budget (i + 1) (now + 100 + durs i)).2.1 with
        | nil =>
          have := ih.2.1 hl
          simp [hl, this]
        | cons x t =>
          have := ih.2.2.1 (by rw [hl]; simp)
          rw [hl] at this
          simp only [List.getLast?_cons_cons]
          rw [← List.getLast?_cons_cons (a := false)] at this ⊢
          exact this
      · intro b hb2
        cases hl : (bindLoopGo bind durs budget (i + 1) (now + 100 + durs i)).2.1 with
        | nil => rw [hl] at hb2; simp at hb2
        | cons x t =>
          rw [hl] at hb2
          rw [show (false :: x :: t).dropLast = false :: (x :: t).dropLast from rfl] at hb2
          rcases List.mem_cons.1 hb2 with hb2 | hb2
          · exact hb2
          · exact ih.2.2.2 b (by rw [hl]; exact hb2)
  · rw [bindLoopGo]
    simp [h]
    omega
termination_by budget - now
decreasing_by simp_wf; omega

/-- The full bind phase always makes at least one call, its result list
ends with `peerReady`, and every call before the last returned false. -/
theorem relayBindPhase_spec (bind : Nat → Bool) (durs : Nat → Nat) (budget : Nat) :
    (relayBindPhase bind durs budget).2 ≠ [] ∧
    (relayBindPhase bind durs budget).2.getLast? = some (relayBindPhase bind durs budget).1 ∧
    (∀ b ∈ (relayBindPhase bind durs budget).2.dropLast, b = false) := by
  unfold relayBindPhase
  by_cases h0 : bind 0
  · simp [h0]
  · simp only [h0, if_false, Bool.false_eq_true]
    have spec := bindLoopGo_spec bind durs budget 1 0
    refine ⟨by simp, ?_, ?_⟩
    · cases hl : (bindLoopGo bind durs budget 1 0).2.1 with
      | nil =>
        have := spec.2.1 hl
        simp [hl, this]
      | cons x t =>
        have := spec.2.2.1 (by rw [hl]; simp)
        rw [hl] at this
        simp only [List.getLast?_cons_cons]
        rw [← List.getLast?_cons_cons (a := false)] at this ⊢
        exact this
    · intro b hb2
      cases hl : (bindLoopGo bind durs budget 1 0).2.1 with
      | nil => rw [hl] at hb2; simp at hb2
      | cons x t =>
        rw [hl] at hb2
        rw [show (false :: x :: t).dropLast = false :: (x :: t).dropLast from rfl] at hb2
        rcases List.mem_cons.1 hb2 with hb2 | hb2
        · exact hb2
        · exact spec.2.2.2 b (by rw [hl]; exact hb2)

/-- Characterisation of a successful responder relay tail. -/
theorem respondRelayTail_ok {chClosed : Bool} {opts : DirectFirstOptions} {o : ResponderOracle}
    {sessionId peerAgentId : String} {relayOutcome : Except String SigEvent}
    {pre : List NegEff} {res : NegResult} {tr : List NegEff}
    (h : respondRelayTail chClosed opts o sessionId peerAgentId relayOutcome pre =
      Except.ok (res, tr)) :
    ∃ (ev : SigEvent) (info : RelayInfo),
      relayOutcome = Except.ok ev ∧
      parseRelayInfo (relayValue ev.payload) = Except.ok info ∧
      o.transport.transportOk = true ∧
      jsTrim sessionId ≠ "" ∧ jsTrim peerAgentId ≠ "" ∧
      res = NegResult.relay sessionId peerAgentId info
        (relayBindPhase o.transport.bindResults o.transport.bindDurs
          (max 2000 (opts.directTimeoutMs.getD 5000))).1 opts.token ∧
      tr = pre ++ (NegEff.transportConnected ::
        (relayBindPhase o.transport.bindResults o.transport.bindDurs
          (max 2000 (opts.directTimeoutMs.getD 5000))).2.map
            (fun b => NegEff.bindCall opts.token sessionId b)) ++
        [NegEff.answerSent ⟨jsTrim peerAgentId, some (jsTrim sessionId),
          WirePayload.quicAnswer (answerBody "relay")⟩] := by
  cases relayOutcome with
  | error e => simp [respondRelayTail, bind, Except.bind] at h
  | ok ev =>
    cases hpi : parseRelayInfo (relayValue ev.payload) with
    | error e => simp [respondRelayTail, bind, Except.bind, hpi] at h
    | ok info =>
      cases hok : o.transport.transportOk with
      | false => simp [respondRelayTail, bind, Except.bind, hpi, relayPhase, hok] at h
      | true =>
        cases hcmd : sendAnswerCmd chClosed sessionId peerAgentId (answerBody "relay") with
        | error e => simp [respondRelayTail, bind, Except.bind, hpi, relayPhase, hok, hcmd] at h
        | ok cmd =>
          obtain ⟨hcmdeq, hsid, hta⟩ := sendAnswerCmd_ok hcmd
          subst hcmdeq
          simp only [respondRelayTail, bind, Except.bind, hpi, relayPhase, hok, hcmd,
            Bool.true_eq_false, not_true_eq_false, if_false, ite_false, Except.ok.injEq,
            Prod.mk.injEq, not_true] at h
          refine ⟨ev, info, rfl, hpi, rfl, hsid, hta, ?_, ?_⟩
          · exact h.1.symm
          · rw [← h.2]

/-- Characterisation of a successful initiator relay tail. -/
theorem initiateRelayTail_ok {opts : DirectFirstOptions} {o : InitiatorOracle}
    {peerAgentId : String} {relayOutcome : Except String (String × RelayInfo)}
    {pre : List NegEff} {res : NegResult} {tr : List NegEff}
    (h : initiateRelayTail opts o peerAgentId relayOutcome pre = Except.ok (res, tr)) :
    ∃ (sessionId : String) (info : RelayInfo),
      relayOutcome = Except.ok (sessionId, info) ∧
      o.transport.transportOk = true ∧
      res = NegResult.relay sessionId peerAgentId info
        (relayBindPhase o.transport.bindResults o.transport.bindDurs
          (max 2000 (opts.directTimeoutMs.getD 5000))).1 opts.token ∧
      tr = pre ++ (NegEff.transportConnected ::
        (relayBindPhase o.transport.bindResults o.transport.bindDurs
          (max 2000 (opts.directTimeoutMs.getD 5000))).2.map
            (fun b => NegEff.bindCall opts.token sessionId b)) := by
  cases relayOutcome with
  | error e => simp [initiateRelayTail, bind, Except.bind] at h
  | ok p =>
    obtain ⟨sessionId, info⟩ := p
    cases hok : o.transport.transportOk with
    | false => simp [initiateRelayTail, bind, Except.bind, relayPhase, hok] at h
    | true =>
      simp only [initiateRelayTail, bind, Except.bind, relayPhase, hok, Bool.true_eq_false,
        not_true_eq_false, if_false, ite_false, Except.ok.injEq, Prod.mk.injEq] at h
      exact ⟨sessionId, info, rfl, rfl, h.1.symm, h.2.symm⟩

/-- Is this effect an answer send? -/
def NegEff.isAnswer : NegEff → Bool
  | NegEff.answerSent _ => true
  | _ => false

/-- Bind-call effects are never answer sends. -/
theorem filter_isAnswer_bindCalls (l : List Bool) (tok sid : String) :
    (l.map (fun b => NegEff.bindCall tok sid b)).filter NegEff.isAnswer = [] := by
  induction l with
  | nil => rfl
  | cons x t ih => simpa [List.filter, NegEff.isAnswer] using ih

/-- C3 (claim): every responder negotiation that resolves sends exactly
one QuicAnswer, addressed to the offer sender on the offer session,
and only after the chosen transport is set up: for a direct resolution
the answer body is accepted/direct and it is sent immediately after the
successful direct connect; for a relay resolution the answer body is
accepted/relay and it is the last effect, after the relay transport
connect and the whole bind retry loop. -/
theorem responder_answer_exactly_once :
    ∀ (chClosed : Bool) (offerEvent : SigEvent) (opts : DirectFirstOptions)
      (cached : Option SigEvent) (o : ResponderOracle) (res : NegResult) (tr : List NegEff),
      respondQuicOfferDirectFirst chClosed offerEvent opts cached o = Except.ok (res, tr) →
      ∃ cmd : SignalingCommandWire,
        tr.filter NegEff.isAnswer = [NegEff.answerSent cmd] ∧
        cmd.session_id = some (jsTrim offerEvent.sessionId) ∧
        cmd.toAgent = jsTrim offerEvent.fromAgent ∧
        ((∃ s p, res = NegResult.direct s p) →
          cmd.payload = WirePayload.quicAnswer (answerBody "direct") ∧
          tr = [NegEff.directConnected, NegEff.answerSent cmd]) ∧
        ((∃ s p info pr tok, res = NegResult.relay s p info pr tok) →
          cmd.payload = WirePayload.quicAnswer (answerBody "relay") ∧
          ∃ preEffs, tr = preEffs ++ [NegEff.answerSent cmd] ∧
            NegEff.transportConnected ∈ preEffs) := by
  intro chClosed offerEvent opts cached o res tr h
  by_cases hofp : isOfferPayloadB offerEvent = true
  case neg =>
    simp [respondQuicOfferDirectFirst, hofp] at h
  case pos =>
    cases hconn : o.connectOk with
    | true =>
      cases hcmd : sendAnswerCmd chClosed offerEvent.sessionId offerEvent.fromAgent
          (answerBody "direct") with
      | ok cmd =>
        simp only [respondQuicOfferDirectFirst, hofp, not_true_eq_false, if_false, ite_false,
          hconn, if_true, ite_true, hcmd, Except.ok.injEq, Prod.mk.injEq] at h
        obtain ⟨hres, htr⟩ := h
        obtain ⟨hcmdeq, hsid, hta⟩ := sendAnswerCmd_ok hcmd
        subst hcmdeq
        refine ⟨⟨jsTrim offerEvent.fromAgent, some (jsTrim offerEvent.sessionId),
          WirePayload.quicAnswer (answerBody "direct")⟩, ?_, rfl, rfl, ?_, ?_⟩
        · rw [← htr]
          rfl
        · intro _
          exact ⟨rfl, htr.symm⟩
        · intro ⟨s, p, i, pr, tok, hrel⟩
          rw [← hres] at hrel
          exact absurd hrel (fun he => NegResult.noConfusion he)
      | error e =>
        simp only [respondQuicOfferDirectFirst, hofp, not_true_eq_false, if_false, ite_false,
          hconn, if_true, ite_true, hcmd] at h
        obtain ⟨ev, info, hro, hpi, hok, hsid, hta, hres, htr⟩ := respondRelayTail_ok h
        refine ⟨⟨jsTrim offerEvent.fromAgent, some (jsTrim offerEvent.sessionId),
          WirePayload.quicAnswer (answerBody "relay")⟩, ?_, rfl, rfl, ?_, ?_⟩
        · rw [htr]
          simp [List.filter_append, List.filter_cons, NegEff.isAnswer, filter_isAnswer_bindCalls]
        · intro ⟨s, p, hdir⟩
          rw [hres] at hdir
          exact absurd hdir (fun he => NegResult.noConfusion he)
        · intro _
          refine ⟨rfl, [NegEff.directConnected] ++ (NegEff.transportConnected ::
            (relayBindPhase o.transport.bindResults o.transport.bindDurs
              (max 2000 (opts.directTimeoutMs.getD 5000))).2.map
                (fun b => NegEff.bindCall opts.token offerEvent.sessionId b)), htr, ?_⟩
          simp
    | false =>
      simp only [respondQuicOfferDirectFirst, hofp, not_true_eq_false, if_false, ite_false,
        hconn, Bool.false_eq_true] at h
      obtain ⟨ev, info, hro, hpi, hok, hsid, hta, hres, htr⟩ := respondRelayTail_ok h
      refine ⟨⟨jsTrim offerEvent.fromAgent, some (jsTrim offerEvent.sessionId),
        WirePayload.quicAnswer (answerBody "relay")⟩, ?_, rfl, rfl, ?_, ?_⟩
      · rw [htr]
        simp [List.filter_append, List.filter_cons, NegEff.isAnswer, filter_isAnswer_bindCalls]
      · intro ⟨s, p, hdir⟩
        rw [hres] at hdir
        exact absurd hdir (fun he => NegResult.noConfusion he)
      · intro _
        refine ⟨rfl, [] ++ (NegEff.transportConnected ::
          (relayBindPhase o.transport.bindResults o.transport.bindDurs
            (max 2000 (opts.directTimeoutMs.getD 5000))).2.map
              (fun b => NegEff.bindCall opts.token offerEvent.sessionId b)), htr, ?_⟩
        simp

/-- Witness for C3: a responder run with a successful direct connect
resolves direct and sends exactly the direct answer. -/
theorem responder_answer_exactly_once_witness :
    ∃ res tr,
      respondQuicOfferDirectFirst false
          ⟨"S3", "peer-A", "me", Json.null, SigPayload.quicOffer Json.null⟩
          ⟨some 5000, "tok"⟩ none
          ⟨true, [], ⟨true, fun _ => true, fun _ => 0⟩⟩ = Except.ok (res, tr) ∧
      ∃ cmd : SignalingCommandWire,
        tr.filter NegEff.isAnswer = [NegEff.answerSent cmd] ∧
        cmd.session_id = some (jsTrim (⟨"S3", "peer-A", "me", Json.null,
          SigPayload.quicOffer Json.null⟩ : SigEvent).sessionId) ∧
        cmd.toAgent = jsTrim (⟨"S3", "peer-A", "me", Json.null,
          SigPayload.quicOffer Json.null⟩ : SigEvent).fromAgent ∧
        ((∃ s p, res = NegResult.direct s p) →
          cmd.payload = WirePayload.quicAnswer (answerBody "direct") ∧
          tr = [NegEff.directConnected, NegEff.answerSent cmd]) ∧
        ((∃ s p info pr tok, res = NegResult.relay s p info pr tok) →
          cmd.payload = WirePayload.quicAnswer (answerBody "relay") ∧
          ∃ preEffs, tr = preEffs ++ [NegEff.answerSent cmd] ∧
            NegEff.transportConnected ∈ preEffs) :=
  ⟨_, _, rfl, responder_answer_exactly_once false
    ⟨"S3", "peer-A", "me", Json.null, SigPayload.quicOffer Json.null⟩
    ⟨some 5000, "tok"⟩ none ⟨true, [], ⟨true, fun _ => true, fun _ => 0⟩⟩ _ _ rfl⟩

/-- C4 (claim): when the initiator direct accept succeeds at `tA` but
the relay-info event only settles after the two-second grace (while
still inside its own deadline), the initiator does not return a Direct
handle: it falls through to the relay path and resolves to a Relay
handle for the session id carried by the relay event. -/
theorem initiator_grace_timeout_falls_to_relay :
    ∀ (peerAgentId : String) (opts : DirectFirstOptions) (o : InitiatorOracle)
      (tA t : Nat) (ev : SigEvent) (info : RelayInfo),
      jsTrim peerAgentId ≠ "" →
      o.acceptAt = some tA →
      (opts.directTimeoutMs.getD 5000 = 0 ∨ tA < opts.directTimeoutMs.getD 5000) →
      waitForSessionEvent (fun e => e.fromAgent = peerAgentId ∧ isRelayPayloadB e)
          (max 2000 (opts.directTimeoutMs.getD 5000)) o.stream = (t, Except.ok ev) →
      tA + 2000 ≤ t →
      parseRelayInfo (relayValue ev.payload) = Except.ok info →
      o.transport.transportOk = true →
      ∃ pr tr,
        initiateQuicSessionDirectFirst false peerAgentId opts o =
          Except.ok (NegResult.relay ev.sessionId peerAgentId info pr opts.token, tr) := by
  intro peerAgentId opts o tA t ev info hpeer hacc hdir hw hgrace hparse htrans
  have hsoc : sendOfferCmd false peerAgentId (quicPeerServerOffer o.rawOffer) =
      Except.ok ⟨jsTrim peerAgentId, none,
        WirePayload.quicOffer (quicPeerServerOffer o.rawOffer)⟩ := by
    simp [sendOfferCmd, opCommand, requireAgentId, hpeer, bind, Except.bind]
  have hrun : initiateQuicSessionDirectFirst false peerAgentId opts o =
      initiateRelayTail opts o peerAgentId (Except.ok (ev.sessionId, info))
        [NegEff.offerSent ⟨jsTrim peerAgentId, none,
          WirePayload.quicOffer (quicPeerServerOffer o.rawOffer)⟩, NegEff.directAccepted] := by
    simp only [initiateQuicSessionDirectFirst, hsoc, hw, hparse, hacc, if_pos hdir,
      if_neg (by omega : ¬ t < tA + 2000)]
  rw [hrun]
  simp only [initiateRelayTail, bind, Except.bind, relayPhase, htrans, Bool.true_eq_false,
    not_true_eq_false, if_false, ite_false]
  exact ⟨_, _, rfl⟩

/-- Witness for C4: direct accept at 0 ms, relay info at 3000 ms (after
the 2000 ms grace, inside the 5000 ms deadline) — the run resolves to a
relay handle. -/
theorem initiator_grace_timeout_falls_to_relay_witness :
    ∃ pr tr,
      initiateQuicSessionDirectFirst false "peer-A" ⟨some 5000, "tok"⟩
          ⟨Json.null, some 0,
            [(3000, ⟨"S1", "peer-A", "me", Json.null, SigPayload.quicRelay
              (Json.obj [("session_id", Json.str "S1"), ("quic_addr", Json.str "r:1"),
                ("server_fingerprint_sha256", Json.str "f")])⟩)],
            ⟨true, fun _ => true, fun _ => 0⟩⟩ =
        Except.ok (NegResult.relay
          (⟨"S1", "peer-A", "me", Json.null, SigPayload.quicRelay
              (Json.obj [("session_id", Json.str "S1"), ("quic_addr", Json.str "r:1"),
                ("server_fingerprint_sha256", Json.str "f")])⟩ : SigEvent).sessionId
          "peer-A" ⟨"S1", "r:1", "f", Json.null, Json.null⟩ pr "tok", tr) :=
  initiator_grace_timeout_falls_to_relay "peer-A" ⟨some 5000, "tok"⟩
    ⟨Json.null, some 0,
      [(3000, ⟨"S1", "peer-A", "me", Json.null, SigPayload.quicRelay
        (Json.obj [("session_id", Json.str "S1"), ("quic_addr", Json.str "r:1"),
          ("server_fingerprint_sha256", Json.str "f")])⟩)],
      ⟨true, fun _ => true, fun _ => 0⟩⟩
    0 3000
    ⟨"S1", "peer-A", "me", Json.null, SigPayload.quicRelay
      (Json.obj [("session_id", Json.str "S1"), ("quic_addr", Json.str "r:1"),
        ("server_fingerprint_sha256", Json.str "f")])⟩
    ⟨"S1", "r:1", "f", Json.null, Json.null⟩
    (by decide) rfl (Or.inr (by decide)) rfl (by omega) rfl rfl

/-- Project out a relay bind call from an effect. -/
def NegEff.bindRec : NegEff → Option (String × String × Bool)
  | NegEff.bindCall tok sid r => some (tok, sid, r)
  | _ => none

/-- The bind calls recoverable from a mapped bind-result list. -/
theorem filterMap_bindRec_calls (l : List Bool) (tok sid : String) :
    (l.map (fun b => NegEff.bindCall tok sid b)).filterMap NegEff.bindRec =
      l.map (fun b => (tok, sid, b)) := by
  induction l with
  | nil => rfl
  | cons x t ih => simp [List.filterMap_cons, NegEff.bindRec, ih]

/-- Composition form of the previous lemma, as produced by
`List.filterMap_map`. -/
theorem filterMap_bindRec_comp (l : List Bool) (tok sid : String) :
    l.filterMap (NegEff.bindRec ∘ fun b => NegEff.bindCall tok sid b) =
      l.map (fun b => (tok, sid, b)) := by
  induction l with
  | nil => rfl
  | cons x t ih => simp [List.filterMap_cons, NegEff.bindRec, Function.comp, ih]

/-- `getLast?` commutes with `map`. -/
theorem getLast?_map {α β : Type} (f : α → β) :
    ∀ l : List α, (l.map f).getLast? = l.getLast?.map f := by
  intro l
  induction l with
  | nil => rfl
  | cons x t ih =>
    cases t with
    | nil => rfl
    | cons y t2 => simp only [List.map_cons] at ih ⊢; rw [List.getLast?_cons_cons, ih]; rfl

/-- `dropLast` commutes with `map`. -/
theorem dropLast_map {α β : Type} (f : α → β) :
    ∀ l : List α, (l.map f).dropLast = l.dropLast.map f := by
  intro l
  induction l with
  | nil => rfl
  | cons x t ih =>
    cases t with
    | nil => rfl
    | cons y t2 => simp only [List.map_cons, List.dropLast_cons₂] at ih ⊢; rw [ih]

/-- The bind-call clauses of the retry contract, for a trace of the
shape produced by the relay phase. -/
theorem binds_contract_of_trace {tr pre post : List NegEff} {tok sid : String} {pr : Bool}
    (bind : Nat → Bool) (durs : Nat → Nat) (budget : Nat)
    (htr : tr = pre ++ (NegEff.transportConnected ::
      (relayBindPhase bind durs budget).2.map (fun b => NegEff.bindCall tok sid b)) ++ post)
    (hpre : pre.filterMap NegEff.bindRec = [])
    (hpost : post.filterMap NegEff.bindRec = [])
    (hpr : pr = (relayBindPhase bind durs budget).1) :
    tr.filterMap NegEff.bindRec ≠ [] ∧
    (∀ b ∈ tr.filterMap NegEff.bindRec, b.1 = tok ∧ b.2.1 = sid) ∧
    (tr.filterMap NegEff.bindRec).getLast? = some (tok, sid, pr) ∧
    (∀ b ∈ (tr.filterMap NegEff.bindRec).dropLast, b.2.2 = false) := by
  have spec := relayBindPhase_spec bind durs budget
  have hfm : tr.filterMap NegEff.bindRec =
      (relayBindPhase bind durs budget).2.map (fun b => (tok, sid, b)) := by
    rw [htr]
    simp only [List.filterMap_append, hpre, hpost, List.filterMap_cons]
    simp [NegEff.bindRec, filterMap_bindRec_calls, filterMap_bindRec_comp]
  rw [hfm]
  refine ⟨?_, ?_, ?_, ?_⟩
  · simp [spec.1]
  · intro b hb
    obtain ⟨x, -, hx⟩ := List.mem_map.1 hb
    rw [← hx]
    exact ⟨rfl, rfl⟩
  · rw [getLast?_map, spec.2.1, hpr]
    rfl
  · intro b hb
    rw [dropLast_map] at hb
    obtain ⟨x, hxmem, hx⟩ := List.mem_map.1 hb
    rw [← hx]
    exact spec.2.2 x hxmem

/-- C6 (claim): every negotiation — initiator or responder — that
resolves to a Relay handle made at least one `relayBind` call, every
call used the caller token and the handle session id (in particular
both the first and the last), the handle `peerReady` is the result of
the last call and every earlier call returned false (the loop retries
only until the first success or the `max(2000, directTimeoutMs)`
deadline), the handle token is the option token, and the handle is
returned whatever the final `peerReady`; the retry loop itself gives up
only once its clock has reached the deadline. -/
theorem relay_bind_retry_contract :
    (∀ (chClosed : Bool) (peerAgentId : String) (opts : DirectFirstOptions)
        (o : InitiatorOracle) (res : NegResult) (tr : List NegEff) (sid p2 : String)
        (info : RelayInfo) (pr : Bool) (tok : String),
      initiateQuicSessionDirectFirst chClosed peerAgentId opts o = Except.ok (res, tr) →
      res = NegResult.relay sid p2 info pr tok →
      tok = opts.token ∧
      tr.filterMap NegEff.bindRec ≠ [] ∧
      (∀ b ∈ tr.filterMap NegEff.bindRec, b.1 = opts.token ∧ b.2.1 = sid) ∧
      (tr.filterMap NegEff.bindRec).getLast? = some (opts.token, sid, pr) ∧
      (∀ b ∈ (tr.filterMap NegEff.bindRec).dropLast, b.2.2 = false)) ∧
    (∀ (chClosed : Bool) (offerEvent : SigEvent) (opts : DirectFirstOptions)
        (cached : Option SigEvent) (o : ResponderOracle) (res : NegResult) (tr : List NegEff)
        (sid p2 : String) (info : RelayInfo) (pr : Bool) (tok : String),
      respondQuicOfferDirectFirst chClosed offerEvent opts cached o = Except.ok (res, tr) →
      res = NegResult.relay sid p2 info pr tok →
      tok = opts.token ∧
      tr.filterMap NegEff.bindRec ≠ [] ∧
      (∀ b ∈ tr.filterMap NegEff.bindRec, b.1 = opts.token ∧ b.2.1 = sid) ∧
      (tr.filterMap NegEff.bindRec).getLast? = some (opts.token, sid, pr) ∧
      (∀ b ∈ (tr.filterMap NegEff.bindRec).dropLast, b.2.2 = false)) ∧
    (∀ (bind : Nat → Bool) (durs : Nat → Nat) (budget i now : Nat),
      (bindLoopGo bind durs budget i now).1 = false →
      budget ≤ (bindLoopGo bind durs budget i now).2.2) := by
  refine ⟨?_, ?_, fun bind durs budget i now => (bindLoopGo_spec bind durs budget i now).1⟩
  · intro chClosed peerAgentId opts o res tr sid p2 info pr tok h hres
    cases hsoc : sendOfferCmd chClosed peerAgentId (quicPeerServerOffer o.rawOffer) with
    | error e => simp [initiateQuicSessionDirectFirst, hsoc] at h
    | ok offerCmd =>
      simp only [initiateQuicSessionDirectFirst, hsoc] at h
      have tail : ∀ pre : List NegEff,
          initiateRelayTail opts o peerAgentId
            (match (waitForSessionEvent
                (fun ev => ev.fromAgent = peerAgentId ∧ isRelayPayloadB ev)
                (max 2000 (opts.directTimeoutMs.getD 5000)) o.stream).2 with
              | Except.ok ev =>
                match parseRelayInfo (relayValue ev.payload) with
                | Except.ok info => Except.ok (ev.sessionId, info)
                | Except.error e => Except.error e
              | Except.error e => Except.error e) pre = Except.ok (res, tr) →
          pre.filterMap NegEff.bindRec = [] →
          tok = opts.token ∧
          tr.filterMap NegEff.bindRec ≠ [] ∧
          (∀ b ∈ tr.filterMap NegEff.bindRec, b.1 = opts.token ∧ b.2.1 = sid) ∧
          (tr.filterMap NegEff.bindRec).getLast? = some (opts.token, sid, pr) ∧
          (∀ b ∈ (tr.filterMap NegEff.bindRec).dropLast, b.2.2 = false) := by
        intro pre htail hpre
        obtain ⟨sid', info', hro, htok, hres', htr⟩ := initiateRelayTail_ok htail
        rw [hres] at hres'
        injection hres' with h1 h2 h3 h4 h5
        subst h1; subst h4; subst h5
        refine ⟨rfl, binds_contract_of_trace _ _ _ ?_ hpre (List.filterMap_nil _) rfl⟩
        rw [htr]
        simp
      cases hacc : o.acceptAt with
      | none =>
        simp only [hacc] at h
        exact tail _ h rfl
      | some tA =>
        simp only [hacc] at h
        by_cases hdir : opts.directTimeoutMs.getD 5000 = 0 ∨ tA < opts.directTimeoutMs.getD 5000
        · simp only [eq_true hdir, if_true] at h
          by_cases hgr : (waitForSessionEvent
              (fun ev => ev.fromAgent = peerAgentId ∧ isRelayPayloadB ev)
              (max 2000 (opts.directTimeoutMs.getD 5000)) o.stream).1 < tA + 2000
          · simp only [eq_true hgr, if_true] at h
            cases hev : (waitForSessionEvent
                (fun ev => ev.fromAgent = peerAgentId ∧ isRelayPayloadB ev)
                (max 2000 (opts.directTimeoutMs.getD 5000)) o.stream).2 with
            | ok ev =>
              cases hpi : parseRelayInfo (relayValue ev.payload) with
              | ok info2 =>
                simp only [hev, hpi, Except.ok.injEq, Prod.mk.injEq] at h
                rw [hres] at h
                exact absurd h.1.symm (fun he => NegResult.noConfusion he)
              | error e =>
                refine tail [NegEff.offerSent offerCmd, NegEff.directAccepted] ?_ rfl
                simp only [hev, hpi] at h ⊢
                exact h
            | error e =>
              refine tail [NegEff.offerSent offerCmd, NegEff.directAccepted] ?_ rfl
              simp only [hev] at h ⊢
              exact h
          · simp only [eq_false hgr, if_false, ite_false] at h
            exact tail _ h rfl
        · simp only [eq_false hdir, if_false, ite_false] at h
          exact tail _ h rfl
  · intro chClosed offerEvent opts cached o res tr sid p2 info pr tok h hres
    by_cases hofp : isOfferPayloadB offerEvent = true
    case neg => simp [respondQuicOfferDirectFirst, hofp] at h
    case pos =>
      have tail : ∀ (pre : List NegEff) (ro : Except String SigEvent),
          respondRelayTail chClosed opts o offerEvent.sessionId offerEvent.fromAgent ro pre =
            Except.ok (res, tr) →
          pre.filterMap NegEff.bindRec = [] →
          tok = opts.token ∧
          tr.filterMap NegEff.bindRec ≠ [] ∧
          (∀ b ∈ tr.filterMap NegEff.bindRec, b.1 = opts.token ∧ b.2.1 = sid) ∧
          (tr.filterMap NegEff.bindRec).getLast? = some (opts.token, sid, pr) ∧
          (∀ b ∈ (tr.filterMap NegEff.bindRec).dropLast, b.2.2 = false) := by
        intro pre ro htail hpre
        obtain ⟨ev, info', hro, hpi, hok, hsid, hta, hres', htr⟩ := respondRelayTail_ok htail
        rw [hres] at hres'
        injection hres' with h1 h2 h3 h4 h5
        subst h1; subst h4; subst h5
        exact ⟨rfl, binds_contract_of_trace _ _ _ htr hpre rfl rfl⟩
      cases hconn : o.connectOk with
      | true =>
        cases hcmd : sendAnswerCmd chClosed offerEvent.sessionId offerEvent.fromAgent
            (answerBody "direct") with
        | ok cmd =>
          simp only [respondQuicOfferDirectFirst, hofp, not_true_eq_false, if_false, ite_false,
            hconn, if_true, ite_true, hcmd, Except.ok.injEq, Prod.mk.injEq] at h
          rw [hres] at h
          exact absurd h.1.symm (fun he => NegResult.noConfusion he)
        | error e =>
          simp only [respondQuicOfferDirectFirst, hofp, not_true_eq_false, if_false, ite_false,
            hconn, if_true, ite_true, hcmd] at h
          exact tail _ _ h rfl
      | false =>
        simp only [respondQuicOfferDirectFirst, hofp, not_true_eq_false, if_false, ite_false,
          hconn, Bool.false_eq_true] at h
        exact tail _ _ h rfl

/-- Witness for C6: the initiator run of the C4 scenario resolves to a
relay handle whose single bind call carries the caller token and the
handle session id. -/
theorem relay_bind_retry_contract_witness :
    ("tok" : String) = (⟨some 5000, "tok"⟩ : DirectFirstOptions).token ∧
    ([NegEff.offerSent ⟨"peer-A", none, WirePayload.quicOffer Json.null⟩,
      NegEff.directAccepted, NegEff.transportConnected,
      NegEff.bindCall "tok" "S1" true].filterMap NegEff.bindRec) ≠ [] ∧
    (∀ b ∈ [NegEff.offerSent ⟨"peer-A", none, WirePayload.quicOffer Json.null⟩,
        NegEff.directAccepted, NegEff.transportConnected,
        NegEff.bindCall "tok" "S1" true].filterMap NegEff.bindRec,
      b.1 = (⟨some 5000, "tok"⟩ : DirectFirstOptions).token ∧ b.2.1 = "S1") ∧
    ([NegEff.offerSent ⟨"peer-A", none, WirePayload.quicOffer Json.null⟩,
      NegEff.directAccepted, NegEff.transportConnected,
      NegEff.bindCall "tok" "S1" true].filterMap NegEff.bindRec).getLast? =
        some ((⟨some 5000, "tok"⟩ : DirectFirstOptions).token, "S1", true) ∧
    (∀ b ∈ ([NegEff.offerSent ⟨"peer-A", none, WirePayload.quicOffer Json.null⟩,
        NegEff.directAccepted, NegEff.transportConnected,
        NegEff.bindCall "tok" "S1" true].filterMap NegEff.bindRec).dropLast,
      b.2.2 = false) :=
  relay_bind_retry_contract.1 false "peer-A" ⟨some 5000, "tok"⟩
    ⟨Json.null, some 0,
      [(3000, ⟨"S1", "peer-A", "me", Json.null, SigPayload.quicRelay
        (Json.obj [("session_id", Json.str "S1"), ("quic_addr", Json.str "r:1"),
          ("server_fingerprint_sha256", Json.str "f")])⟩)],
      ⟨true, fun _ => true, fun _ => 0⟩⟩
    (NegResult.relay "S1" "peer-A" ⟨"S1", "r:1", "f", Json.null, Json.null⟩ true "tok")
    [NegEff.offerSent ⟨"peer-A", none, WirePayload.quicOffer Json.null⟩,
      NegEff.directAccepted, NegEff.transportConnected, NegEff.bindCall "tok" "S1" true]
    "S1" "peer-A" ⟨"S1", "r:1", "f", Json.null, Json.null⟩ true "tok" rfl rfl

end GannSdk
